import Mathlib

set_option maxRecDepth 100000

/-!
Verification development for the Monkey interpreter/compiler/VM repository.

The Go sources are embedded shallowly:
* machine integers (`int64`) are `Int` with explicit two's-complement wrapping;
* `float64` is modelled as `Rat`; every float value appearing in a theorem
  below is a small dyadic rational, on which IEEE-754 equality and the
  arithmetic used agree exactly with exact rational arithmetic;
* Go pointers are heap addresses (`Nat`); Go's pointer equality on
  `object.Object` interface values is decidable equality of references,
  with the canonical singletons `TRUE`/`FALSE`/`NULL` as distinguished
  references; a fresh allocation always yields a fresh address;
* Go `nil` interface values are `Option`'s `none`; calling a method on a
  nil interface, indexing out of range, and integer division by zero are
  the `panic` outcome;
* fallible/stateful code is explicit state passing over a heap, with a
  fuel parameter for the recursion of the evaluator, lexer, parser and VM.
-/

namespace Monkey

/-- Two's-complement wrap into the signed 64-bit range, modelling Go `int64`
overflow on `+`, `-`, `*` and negation. -/
def wrap64 (n : Int) : Int := ((n + 2 ^ 63) % 2 ^ 64) - 2 ^ 63

/-- Unsigned 64-bit bit pattern of a signed 64-bit value, modelling the Go
conversion `uint64(v)` used by `(*Integer).HashKey`. -/
def toUint64 (n : Int) : Nat := (n % (2 : Int) ^ 64).toNat

/-- Model of `float64` (see the file docstring: all float values used in the
theorems are dyadic rationals on which IEEE-754 and exact rational
arithmetic agree). -/
abbrev F64 := Rat

/-! Object type tags, from `object` (part_011). -/

def INTEGER_OBJ : String := "INTEGER"
def FLOAT_OBJ : String := "FLOAT"
def BOOLEAN_OBJ : String := "BOOLEAN"
def STRING_OBJ : String := "STRING"
def NULL_OBJ : String := "NULL"
def RETURN_VALUE_OBJ : String := "RETURN_VALUE"
def ERROR_OBJ : String := "ERROR"
def FUNCTION_OBJ : String := "FUNCTION"
def BUILTIN_OBJ : String := "BUILTIN"
def ARRAY_OBJ : String := "ARRAY"
def HASH_OBJ : String := "HASH"
def TENSOR_OBJ : String := "TENSOR"

/-- A Go `object.Object` interface value: either one of the three canonical
singletons of the evaluator package or a pointer to a heap allocation.
Decidable equality is exactly Go pointer equality. -/
inductive ObjRef where
  | boolTrue
  | boolFalse
  | nullRef
  | heap (a : Nat)
deriving DecidableEq, Repr

/-- The evaluator's canonical `TRUE` singleton. -/
def TRUE : ObjRef := .boolTrue

/-- The evaluator's canonical `FALSE` singleton. -/
def FALSE : ObjRef := .boolFalse

/-- The evaluator's canonical `NULL` singleton. -/
def NULL : ObjRef := .nullRef

/-- An `object.HashKey`: the symbolic type tag plus a 64-bit value. -/
structure HashKey where
  type_ : String
  value : Nat
deriving DecidableEq, Repr

/-! The AST (package `ast`; node structure as used by the parser in
part_006 and the evaluator, spec section 3.2). Blocks are statement
lists; `nilE` stands for a Go `nil` `ast.Expression` (produced by failed
parser productions). -/

mutual
inductive Expr where
  | ident (name : String)
  | intLit (v : Int)
  | floatLit (v : F64)
  | boolLit (b : Bool)
  | strLit (s : String)
  | prefixE (op : String) (right : Expr)
  | infixE (op : String) (left right : Expr)
  | ifE (cond : Expr) (conseq : List Stmt) (alt : Option (List Stmt))
  | fnLit (params : List String) (body : List Stmt) (name : String)
  | callE (callee : Expr) (args : List Expr)
  | arrLit (elems : List Expr)
  | indexE (left idx : Expr)
  | hashLit (pairs : List (Expr × Expr))
  | tensorLit (shape dat : Expr)
  | importLit (path : String)
  | nilE
deriving Repr

inductive Stmt where
  | letS (name : String) (value : Expr)
  | retS (value : Expr)
  | exprS (e : Expr)
deriving Repr
end

/-- Heap cell contents for evaluator objects (`object` package). Array
elements and hash values may be Go `nil` (`none`); a hash maps a `HashKey`
to the pair of the key object and the value object. -/
inductive Payload where
  | int (v : Int)
  | float (v : F64)
  | str (s : String)
  | arr (elems : List (Option ObjRef))
  | hashv (pairs : List (HashKey × ObjRef × Option ObjRef))
  | tensor (shape : List Int) (dat : List F64)
  | fn (params : List String) (body : List Stmt) (envA : Nat)
  | builtin (name : String)
  | retval (v : Option ObjRef)
  | err (msg : String)
  | compiledFn (ins : List Nat) (numLocals numParameters : Nat)
  | closure (fnA : Nat) (free : List (Option ObjRef))

/-- A lexical environment frame (`object.Environment`).
Modelled from the spec: `object/environment.go` is not under `src/`; per
spec section 3.4 a frame is a name-to-value mapping plus an optional
parent, `Get` walks parents and `Set` writes into the receiver frame. -/
structure EnvFrame where
  table : List (String × Option ObjRef)
  parent : Option Nat

/-- The mutable state of an evaluator run: the object heap and the
environment heap.  Addresses are list indices; allocation appends. -/
structure St where
  heapv : List Payload
  envs : List EnvFrame

/-- Allocate a fresh object; models Go's `&object.X{...}`. -/
def St.alloc (s : St) (p : Payload) : ObjRef × St :=
  (.heap s.heapv.length, { s with heapv := s.heapv ++ [p] })

/-- Read a heap cell (total with a default never hit by well-formed runs). -/
def St.read (s : St) (a : Nat) : Payload :=
  (s.heapv.get? a).getD (.err "dangling pointer")

/-- Overwrite a heap cell (in-place mutation of a Go object). -/
def St.write (s : St) (a : Nat) (p : Payload) : St :=
  { s with heapv := s.heapv.set a p }

/-- `Object.Type()`, dispatching on the dynamic type of the object. -/
def typeOf (s : St) : ObjRef → String
  | .boolTrue => BOOLEAN_OBJ
  | .boolFalse => BOOLEAN_OBJ
  | .nullRef => NULL_OBJ
  | .heap a =>
    match s.read a with
    | .int _ => INTEGER_OBJ
    | .float _ => FLOAT_OBJ
    | .str _ => STRING_OBJ
    | .arr _ => ARRAY_OBJ
    | .hashv _ => HASH_OBJ
    | .tensor _ _ => TENSOR_OBJ
    | .fn _ _ _ => FUNCTION_OBJ
    | .builtin _ => BUILTIN_OBJ
    | .retval _ => RETURN_VALUE_OBJ
    | .err _ => ERROR_OBJ
    | .compiledFn _ _ _ => "COMPILED_FUNCTION"
    | .closure _ _ => "CLOSURE"

/-- `isError` from `evaluator.go`: non-nil and of type `ERROR`. -/
def isError (s : St) : Option ObjRef → Bool
  | some r => typeOf s r == ERROR_OBJ
  | none => false

/-- `newError`: allocate an `object.Error` with the given message. -/
def newError (s : St) (msg : String) : ObjRef × St :=
  s.alloc (.err msg)

/-- `nativeBoolToBooleanObject` from `evaluator.go`. -/
def nativeBoolToBooleanObject (b : Bool) : ObjRef :=
  if b then TRUE else FALSE

/-- Outcome of running a piece of evaluator code: a normal Go return value
(possibly the nil interface), a Go runtime panic (nil-interface method
call, out-of-range index, integer division by zero), a host-dependent
result (I/O, PRNG, transcendental float operations — never reached by the
runs in the theorems below), or fuel exhaustion (an artifact of the
embedding only). -/
inductive Res where
  | ok (v : Option ObjRef)
  | panic
  | host
  | fuel

/-- FNV-1a offset basis (from Go `hash/fnv`). -/
def fnvOffset : Nat := 14695981039346656037

/-- FNV-1a prime (from Go `hash/fnv`). -/
def fnvPrime : Nat := 1099511628211

/-- 64-bit FNV-1a over a byte sequence, as computed by `fnv.New64a` plus
`Write` in `(*String).HashKey`. -/
def fnv64a (bytes : List Nat) : Nat :=
  bytes.foldl (fun h b => ((h ^^^ b) * fnvPrime) % 2 ^ 64) fnvOffset

/-- UTF-8 bytes of a string, as Go's `[]byte(s)`. -/
def strBytes (s : String) : List Nat :=
  s.toUTF8.data.toList.map (fun b => b.toNat)

/-- `HashKey()` of an object when it implements `object.Hashable`
(booleans, integers, strings), `none` otherwise. -/
def hashKeyOf (s : St) : ObjRef → Option HashKey
  | .boolTrue => some ⟨BOOLEAN_OBJ, 1⟩
  | .boolFalse => some ⟨BOOLEAN_OBJ, 0⟩
  | .nullRef => none
  | .heap a =>
    match s.read a with
    | .int v => some ⟨INTEGER_OBJ, toUint64 v⟩
    | .str str => some ⟨STRING_OBJ, fnv64a (strBytes str)⟩
    | _ => none

/-- `isTruthy` from `evaluator.go`: a `switch obj` on the singletons, so a
nil interface falls into the `default` case and counts as truthy. -/
def isTruthy : Option ObjRef → Bool
  | some .nullRef => false
  | some .boolTrue => true
  | some .boolFalse => false
  | _ => true

/-- `evalBangOperatorExpression`: also a `switch` on the singletons, so a
nil operand falls to `default` and yields `FALSE`. -/
def evalBangOperatorExpression (s : St) : Option ObjRef → Res × St
  | some .boolTrue => (.ok (some FALSE), s)
  | some .boolFalse => (.ok (some TRUE), s)
  | some .nullRef => (.ok (some TRUE), s)
  | _ => (.ok (some FALSE), s)

/-- `evalMinusPrefixOperatorExpression`. -/
def evalMinusPrefixOperatorExpression (s : St) : Option ObjRef → Res × St
  | none => (.panic, s)
  | some r =>
    if typeOf s r != INTEGER_OBJ && typeOf s r != FLOAT_OBJ then
      newError s ("unknown operator: -" ++ typeOf s r) |>.map (.ok ∘ some) id
    else if typeOf s r == FLOAT_OBJ then
      match r with
      | .heap a =>
        match s.read a with
        | .float v => (s.alloc (.float (-v))).map (.ok ∘ some) id
        | _ => (.panic, s)
      | _ => (.panic, s)
    else
      match r with
      | .heap a =>
        match s.read a with
        | .int v => (s.alloc (.int (wrap64 (-v)))).map (.ok ∘ some) id
        | _ => (.panic, s)
      | _ => (.panic, s)

/-- `evalPrefixExpression`. -/
def evalPrefixExpression (s : St) (op : String) (right : Option ObjRef) :
    Res × St :=
  if op == "!" then evalBangOperatorExpression s right
  else if op == "-" then evalMinusPrefixOperatorExpression s right
  else
    match right with
    | none => (.panic, s)
    | some r => newError s ("unknown operator: " ++ op ++ typeOf s r)
        |>.map (.ok ∘ some) id

/-- `evalIntegerInfixExpression`.  Go `int64` arithmetic wraps on overflow
and panics on division by zero; `/` truncates toward zero. -/
def evalIntegerInfixExpression (s : St) (op : String) (l r : ObjRef) :
    Res × St :=
  match l, r with
  | .heap a, .heap b =>
    match s.read a, s.read b with
    | .int lv, .int rv =>
      if op == "+" then (s.alloc (.int (wrap64 (lv + rv)))).map (.ok ∘ some) id
      else if op == "-" then (s.alloc (.int (wrap64 (lv - rv)))).map (.ok ∘ some) id
      else if op == "*" then (s.alloc (.int (wrap64 (lv * rv)))).map (.ok ∘ some) id
      else if op == "/" then
        if rv = 0 then (.panic, s)
        else (s.alloc (.int (wrap64 (Int.tdiv lv rv)))).map (.ok ∘ some) id
      else if op == "<" then (.ok (some (nativeBoolToBooleanObject (lv < rv))), s)
      else if op == ">" then (.ok (some (nativeBoolToBooleanObject (lv > rv))), s)
      else if op == "==" then (.ok (some (nativeBoolToBooleanObject (lv == rv))), s)
      else if op == "!=" then (.ok (some (nativeBoolToBooleanObject (lv != rv))), s)
      else newError s ("unknown operator: " ++ INTEGER_OBJ ++ " " ++ op ++ " " ++ INTEGER_OBJ)
        |>.map (.ok ∘ some) id
    | _, _ => (.panic, s)
  | _, _ => (.panic, s)

/-- `evalFloatInfixExpression`.  Division by zero is IEEE host behaviour
(infinities), outside the exact-rational model, hence `host`; no theorem
below divides by zero. -/
def evalFloatInfixExpression (s : St) (op : String) (l r : ObjRef) :
    Res × St :=
  match l, r with
  | .heap a, .heap b =>
    match s.read a, s.read b with
    | .float lv, .float rv =>
      if op == "+" then (s.alloc (.float (lv + rv))).map (.ok ∘ some) id
      else if op == "-" then (s.alloc (.float (lv - rv))).map (.ok ∘ some) id
      else if op == "*" then (s.alloc (.float (lv * rv))).map (.ok ∘ some) id
      else if op == "/" then
        if rv = 0 then (.host, s)
        else (s.alloc (.float (lv / rv))).map (.ok ∘ some) id
      else if op == "<" then (.ok (some (nativeBoolToBooleanObject (lv < rv))), s)
      else if op == ">" then (.ok (some (nativeBoolToBooleanObject (lv > rv))), s)
      else if op == "==" then (.ok (some (nativeBoolToBooleanObject (lv == rv))), s)
      else if op == "!=" then (.ok (some (nativeBoolToBooleanObject (lv != rv))), s)
      else newError s ("unknown operator: " ++ FLOAT_OBJ ++ " " ++ op ++ " " ++ FLOAT_OBJ)
        |>.map (.ok ∘ some) id
    | _, _ => (.panic, s)
  | _, _ => (.panic, s)

/-- `evalStringInfixExpression`: only `+` (concatenation) is supported. -/
def evalStringInfixExpression (s : St) (op : String) (l r : ObjRef) :
    Res × St :=
  match l, r with
  | .heap a, .heap b =>
    match s.read a, s.read b with
    | .str lv, .str rv =>
      if op == "+" then (s.alloc (.str (lv ++ rv))).map (.ok ∘ some) id
      else newError s ("unknown operator: " ++ STRING_OBJ ++ " " ++ op ++ " " ++ STRING_OBJ)
        |>.map (.ok ∘ some) id
    | _, _ => (.panic, s)
  | _, _ => (.panic, s)

/-- Cases 3–6 of the `switch` in `evalInfixExpression` (reached with both
operands non-nil): the `==`/`!=` reference comparisons come BEFORE the
type-mismatch check. -/
def infixTail (s : St) (op : String) (l r : ObjRef) : Res × St :=
  if op == "==" then (.ok (some (nativeBoolToBooleanObject (l = r))), s)
  else if op == "!=" then (.ok (some (nativeBoolToBooleanObject (l ≠ r))), s)
  else if typeOf s l != typeOf s r then
    newError s ("type mismatch: " ++ typeOf s l ++ " " ++ op ++ " " ++ typeOf s r)
      |>.map (.ok ∘ some) id
  else if typeOf s l == STRING_OBJ && typeOf s r == STRING_OBJ then
    evalStringInfixExpression s op l r
  else
    newError s ("unknown operator: " ++ typeOf s l ++ " " ++ op ++ " " ++ typeOf s r)
      |>.map (.ok ∘ some) id

/-- `evalInfixExpression`, mirroring the `switch` with Go's left-to-right,
short-circuit evaluation of the case guards (`left.Type()` on a nil
interface panics; `x == y` on interface values does not). -/
def evalInfixExpression (s : St) (op : String) (l r : Option ObjRef) :
    Res × St :=
  match l with
  | none => (.panic, s)
  | some lv =>
    if typeOf s lv == INTEGER_OBJ then
      match r with
      | none => (.panic, s)
      | some rv =>
        if typeOf s rv == INTEGER_OBJ then evalIntegerInfixExpression s op lv rv
        else infixTail s op lv rv
    else if typeOf s lv == FLOAT_OBJ then
      match r with
      | none => (.panic, s)
      | some rv =>
        if typeOf s rv == FLOAT_OBJ then evalFloatInfixExpression s op lv rv
        else infixTail s op lv rv
    else if op == "==" then (.ok (some (nativeBoolToBooleanObject (some lv = r))), s)
    else if op == "!=" then (.ok (some (nativeBoolToBooleanObject (some lv ≠ r))), s)
    else
      match r with
      | none => (.panic, s)
      | some rv => infixTail s op lv rv

/-- `evalArrayIndexExpression` (precondition from the dispatch: the
receiver is an array and the index an integer; a failed Go type assertion
is a panic). -/
def evalArrayIndexExpression (s : St) (array index : ObjRef) : Res × St :=
  match array with
  | .heap a =>
    match s.read a with
    | .arr elems =>
      match index with
      | .heap b =>
        match s.read b with
        | .int idx =>
          if idx < 0 || idx > (elems.length : Int) - 1 then (.ok (some NULL), s)
          else (.ok ((elems.get? idx.toNat).getD none), s)
        | _ => (.panic, s)
      | _ => (.panic, s)
    | _ => (.panic, s)
  | _ => (.panic, s)

/-- `evalHashIndexExpression`.  A non-hashable index errors; note the nil
index case panics inside the error formatting (`index.Type()`). -/
def evalHashIndexExpression (s : St) (hash : ObjRef) (index : Option ObjRef) :
    Res × St :=
  match hash with
  | .heap a =>
    match s.read a with
    | .hashv pairs =>
      match index with
      | none => (.panic, s)
      | some iv =>
        match hashKeyOf s iv with
        | none => newError s ("unusable as hash key: " ++ typeOf s iv)
            |>.map (.ok ∘ some) id
        | some hk =>
          match pairs.find? (fun p => p.1 = hk) with
          | none => (.ok (some NULL), s)
          | some p => (.ok p.2.2, s)
    | _ => (.panic, s)
  | _ => (.panic, s)

/-- Append a fresh enclosed environment frame
(`object.NewEnclosedEnvironment`; modelled from the spec, section 3.4). -/
def envNew (s : St) (parent : Option Nat) : Nat × St :=
  (s.envs.length, { s with envs := s.envs ++ [⟨[], parent⟩] })

/-- Lookup in a single frame's table. -/
def tableGet : List (String × Option ObjRef) → String → Option (Option ObjRef)
  | [], _ => none
  | (k, v) :: rest, name => if k == name then some v else tableGet rest name

/-- Insert-or-overwrite in a single frame's table (Go map assignment). -/
def tableSet (name : String) (v : Option ObjRef) :
    List (String × Option ObjRef) → List (String × Option ObjRef)
  | [] => [(name, v)]
  | (k, w) :: rest =>
    if k == name then (k, v) :: rest else (k, w) :: tableSet name v rest

/-- `Environment.Get`: search the frame, then the parent chain (modelled
from the spec, section 3.4).  The fuel is bounded by the number of frames,
which always suffices because parents precede children. -/
def envGetAux (s : St) : Nat → Nat → String → Option (Option ObjRef)
  | 0, _, _ => none
  | fuel + 1, a, name =>
    match s.envs.get? a with
    | none => none
    | some fr =>
      match tableGet fr.table name with
      | some v => some v
      | none =>
        match fr.parent with
        | none => none
        | some p => envGetAux s fuel p name

/-- `Environment.Get` at an environment address. -/
def envGet (s : St) (a : Nat) (name : String) : Option (Option ObjRef) :=
  envGetAux s (s.envs.length + 1) a name

/-- `Environment.Set`: write into the receiver (innermost) frame only. -/
def envSet (s : St) (a : Nat) (name : String) (v : Option ObjRef) : St :=
  match s.envs.get? a with
  | none => s
  | some fr =>
    { s with envs := s.envs.set a { fr with table := tableSet name v fr.table } }

/-! The builtin registry (`object/builtins.go`).  The registry is a slice
of name/function pairs in this order; the singleton `*object.Builtin`
values are modelled as the first ten heap allocations of the initial
state, so `GetBuiltInByName` and `OpGetBuiltin` return stable pointers. -/

/-- Names of the registry entries of `object.Builtins`, in slice order. -/
def builtinNames : List String :=
  ["len", "puts", "first", "last", "rest", "push", "pop", "join", "random", "exp"]

/-- `object.GetBuiltInByName`: linear search of the registry; `none` is
Go's `nil` for an unknown name. -/
def GetBuiltInByName (name : String) : Option ObjRef :=
  (builtinNames.indexOf? name).map .heap

/-- The evaluator package's `builtins` map (`evaluator/builtins.go`): only
len, first, last, rest, push and puts are present. -/
def evalBuiltins (name : String) : Option ObjRef :=
  if name == "len" || name == "first" || name == "last" || name == "rest"
      || name == "push" || name == "puts" then
    GetBuiltInByName name
  else none

/-- The initial state: the ten registry builtins pre-allocated at
addresses 0–9, and the single global environment frame at address 0. -/
def initSt : St :=
  { heapv := builtinNames.map .builtin, envs := [⟨[], none⟩] }

/-- The `len` builtin. -/
def builtinLen (s : St) (args : List (Option ObjRef)) : Res × St :=
  match args with
  | [arg] =>
    match arg with
    | none => (.panic, s)
    | some r =>
      match r with
      | .heap a =>
        match s.read a with
        | .str v => (s.alloc (.int ((strBytes v).length : Int))).map (.ok ∘ some) id
        | .arr elems => (s.alloc (.int (elems.length : Int))).map (.ok ∘ some) id
        | _ => (newError s ("argument to `len` not supported, got " ++ typeOf s r)).map (.ok ∘ some) id
      | _ => (newError s ("argument to `len` not supported, got " ++ typeOf s r)).map (.ok ∘ some) id
  | _ =>
    (newError s ("wrong number of arguments. got=" ++ toString args.length ++ ", want=1")).map (.ok ∘ some) id

/-- The `first` builtin. -/
def builtinFirst (s : St) (args : List (Option ObjRef)) : Res × St :=
  match args with
  | [arg] =>
    match arg with
    | none => (.panic, s)
    | some r =>
      if typeOf s r != ARRAY_OBJ then
        (newError s ("argument to `first` must be ARRAY, got " ++ typeOf s r)).map (.ok ∘ some) id
      else
        match r with
        | .heap a =>
          match s.read a with
          | .arr elems =>
            if elems.length > 0 then (.ok (elems.getD 0 none), s) else (.ok none, s)
          | _ => (.panic, s)
        | _ => (.panic, s)
  | _ =>
    (newError s ("wrong number of arguments. got=" ++ toString args.length ++ ", want=1")).map (.ok ∘ some) id

/-- The `last` builtin. -/
def builtinLast (s : St) (args : List (Option ObjRef)) : Res × St :=
  match args with
  | [arg] =>
    match arg with
    | none => (.panic, s)
    | some r =>
      if typeOf s r != ARRAY_OBJ then
        (newError s ("argument to `last` must be ARRAY, got " ++ typeOf s r)).map (.ok ∘ some) id
      else
        match r with
        | .heap a =>
          match s.read a with
          | .arr elems =>
            if elems.length > 0 then (.ok (elems.getD (elems.length - 1) none), s)
            else (.ok none, s)
          | _ => (.panic, s)
        | _ => (.panic, s)
  | _ =>
    (newError s ("wrong number of arguments. got=" ++ toString args.length ++ ", want=1")).map (.ok ∘ some) id

/-- The `rest` builtin: a fresh array holding the tail. -/
def builtinRest (s : St) (args : List (Option ObjRef)) : Res × St :=
  match args with
  | [arg] =>
    match arg with
    | none => (.panic, s)
    | some r =>
      if typeOf s r != ARRAY_OBJ then
        (newError s ("argument to `rest` must be ARRAY, got " ++ typeOf s r)).map (.ok ∘ some) id
      else
        match r with
        | .heap a =>
          match s.read a with
          | .arr elems =>
            if elems.length > 0 then (s.alloc (.arr elems.tail)).map (.ok ∘ some) id
            else (.ok none, s)
          | _ => (.panic, s)
        | _ => (.panic, s)
  | _ =>
    (newError s ("wrong number of arguments. got=" ++ toString args.length ++ ", want=1")).map (.ok ∘ some) id

/-- The `push` builtin: appends to the array IN PLACE (the heap cell is
overwritten) and returns the same array object. -/
def builtinPush (s : St) (args : List (Option ObjRef)) : Res × St :=
  match args with
  | [arg, x] =>
    match arg with
    | none => (.panic, s)
    | some r =>
      if typeOf s r != ARRAY_OBJ then
        (newError s ("argument to `push` must be ARRAY, got " ++ typeOf s r)).map (.ok ∘ some) id
      else
        match r with
        | .heap a =>
          match s.read a with
          | .arr elems => (.ok (some r), s.write a (.arr (elems ++ [x])))
          | _ => (.panic, s)
        | _ => (.panic, s)
  | _ =>
    (newError s ("wrong number of arguments. got=" ++ toString args.length ++ ", want=2")).map (.ok ∘ some) id

/-- The `pop` builtin: removes the last element IN PLACE and returns it;
returns Go `nil` on an empty array. -/
def builtinPop (s : St) (args : List (Option ObjRef)) : Res × St :=
  match args with
  | [arg] =>
    match arg with
    | none => (.panic, s)
    | some r =>
      if typeOf s r != ARRAY_OBJ then
        (newError s ("argument to `pop` must be ARRAY, got " ++ typeOf s r)).map (.ok ∘ some) id
      else
        match r with
        | .heap a =>
          match s.read a with
          | .arr elems =>
            if elems.length > 0 then
              (.ok (elems.getLastD none), s.write a (.arr elems.dropLast))
            else (.ok none, s)
          | _ => (.panic, s)
        | _ => (.panic, s)
  | _ =>
    (newError s ("wrong number of arguments. got=" ++ toString args.length ++ ", want=1")).map (.ok ∘ some) id

/-- The `puts` builtin: prints to the host stdout (not an observable of
any claim) and returns Go `nil`; `Inspect` on a nil argument panics. -/
def builtinPuts (s : St) (args : List (Option ObjRef)) : Res × St :=
  if args.any (fun a => a.isNone) then (.panic, s) else (.ok none, s)

/-- The `join` builtin: the argument checks are exact; the joined string
is produced with host `Inspect` formatting (float rendering), which no
claim observes, hence `host`. -/
def builtinJoin (s : St) (args : List (Option ObjRef)) : Res × St :=
  match args with
  | [arg, sep] =>
    match arg with
    | none => (.panic, s)
    | some r =>
      if typeOf s r != ARRAY_OBJ then
        (newError s ("first argument to `join` must be ARRAY, got " ++ typeOf s r)).map (.ok ∘ some) id
      else
        match sep with
        | none => (.panic, s)
        | some sp =>
          if typeOf s sp != STRING_OBJ then
            (newError s ("second argument to `join` must be STRING, got " ++ typeOf s sp)).map (.ok ∘ some) id
          else (.host, s)
  | _ =>
    (newError s ("wrong number of arguments. got=" ++ toString args.length ++ ", want=2")).map (.ok ∘ some) id

/-- The `random` builtin: a host PRNG value. -/
def builtinRandom (s : St) (args : List (Option ObjRef)) : Res × St :=
  if args.length > 0 then
    (newError s "random() takes no arguments").map (.ok ∘ some) id
  else (.host, s)

/-- The `exp` builtin: the checks are exact; `math.Exp` itself is a host
transcendental outside the rational model.  A nil argument falls to the
type switch's default case (no method call), hence errors, not panics. -/
def builtinExp (s : St) (args : List (Option ObjRef)) : Res × St :=
  match args with
  | [arg] =>
    match arg with
    | some (.heap a) =>
      match s.read a with
      | .float _ => (.host, s)
      | .int _ => (.host, s)
      | _ => (newError s "argument to `exp` must be a number").map (.ok ∘ some) id
    | _ => (newError s "argument to `exp` must be a number").map (.ok ∘ some) id
  | _ =>
    (newError s "wrong number of arguments. exp() requires exactly one argument.").map (.ok ∘ some) id

/-- Dispatch a builtin call by registry name. -/
def callBuiltinFn (s : St) (name : String) (args : List (Option ObjRef)) :
    Res × St :=
  if name == "len" then builtinLen s args
  else if name == "puts" then builtinPuts s args
  else if name == "first" then builtinFirst s args
  else if name == "last" then builtinLast s args
  else if name == "rest" then builtinRest s args
  else if name == "push" then builtinPush s args
  else if name == "pop" then builtinPop s args
  else if name == "join" then builtinJoin s args
  else if name == "random" then builtinRandom s args
  else if name == "exp" then builtinExp s args
  else (.panic, s)

/-- `evalIdentifier`: frame chain first, then the evaluator's builtin map,
otherwise the `identifier not found` error. -/
def evalIdentifier (s : St) (envA : Nat) (name : String) : Res × St :=
  match envGet s envA name with
  | some v => (.ok v, s)
  | none =>
    match evalBuiltins name with
    | some b => (.ok (some b), s)
    | none => (newError s ("identifier not found: " ++ name)).map (.ok ∘ some) id

/-- `unwrapReturnValue`. -/
def unwrapReturnValue (s : St) (v : Option ObjRef) : Option ObjRef :=
  match v with
  | some (.heap a) =>
    match s.read a with
    | .retval inner => inner
    | _ => v
  | _ => v

/-- Bind parameters positionally (`extendFunctionEnv`'s loop body). -/
def bindParams (envA : Nat) : List (String × Option ObjRef) → St → St
  | [], s => s
  | (n, v) :: rest, s => bindParams envA rest (envSet s envA n v)

/-- `extendFunctionEnv`: a fresh frame enclosed in the function's captured
environment, each parameter bound to its positional argument.  `args[i]`
for a missing argument is a Go index-out-of-range panic, modelled as
`none`.  EXTRA arguments are silently ignored. -/
def extendFunctionEnv (s : St) (params : List String) (fnEnv : Nat)
    (args : List (Option ObjRef)) : Option (Nat × St) :=
  let (newEnv, s1) := envNew s (some fnEnv)
  if params.length ≤ args.length then
    some (newEnv, bindParams newEnv (params.zip args) s1)
  else none

/-- Result of `evalExpressions`: the Go function returns a plain slice
(an error is returned as a singleton slice and detected by the caller);
panic/host/fuel outcomes propagate. -/
inductive ResList where
  | oks (vs : List (Option ObjRef))
  | panic
  | host
  | fuel

/-- `evalIndexExpression`: dispatch on the receiver/index tags, with Go's
short-circuit guard evaluation (`index.Type()` is only reached when the
receiver is an array). -/
def evalIndexExpression (s : St) (l i : Option ObjRef) : Res × St :=
  match l with
  | none => (.panic, s)
  | some lv =>
    if typeOf s lv == ARRAY_OBJ then
      match i with
      | none => (.panic, s)
      | some iv =>
        if typeOf s iv == INTEGER_OBJ then evalArrayIndexExpression s lv iv
        else newError s ("index operator not supported: " ++ typeOf s lv)
          |>.map (.ok ∘ some) id
    else if typeOf s lv == HASH_OBJ then evalHashIndexExpression s lv i
    else newError s ("index operator not supported: " ++ typeOf s lv)
      |>.map (.ok ∘ some) id

/-- Go map insert for hash pairs (overwrite an existing key). -/
def upsertPair :
    List (HashKey × ObjRef × Option ObjRef) → HashKey →
    ObjRef × Option ObjRef → List (HashKey × ObjRef × Option ObjRef)
  | [], hk, kv => [(hk, kv)]
  | (k, w) :: rest, hk, kv =>
    if k = hk then (k, kv) :: rest else (k, w) :: upsertPair rest hk kv

/-! The recursive core of `Eval` (`evaluator/evaluator.go`).  Every
recursive call consumes one unit of fuel; all theorems below either run
with ample concrete fuel or quantify over it.  `Eval` on a node kind with
no `switch` case (tensor literals, nil nodes) falls through to `return
nil`.  `import` reads the host filesystem (`host`). -/

/-- The pending work items of the evaluator's mutual recursion (packed
into one fuel-structural function so that runs reduce definitionally). -/
inductive EvalJob where
  | expr (e : Expr) (envA : Nat)
  | stmt (st : Stmt) (envA : Nat)
  | progLoop (stmts : List Stmt) (result : Option ObjRef) (envA : Nat)
  | blockLoop (stmts : List Stmt) (result : Option ObjRef) (envA : Nat)
  | exprsLoop (es : List Expr) (acc : List (Option ObjRef)) (envA : Nat)
  | hashLoop (pairs : List (Expr × Expr))
      (acc : List (HashKey × ObjRef × Option ObjRef)) (envA : Nat)
  | applyFn (fn : Option ObjRef) (args : List (Option ObjRef))

/-- Output of a work item: a `Res` or (for `evalExpressions`) a list. -/
inductive EOut where
  | r (res : Res) (s : St)
  | rl (res : ResList) (s : St)

/-- Project a `Res` output (the `rl` case never crosses over). -/
def asR : EOut → Res × St
  | .r res s => (res, s)
  | .rl _ s => (.panic, s)

/-- Project a `ResList` output. -/
def asRL : EOut → ResList × St
  | .rl res s => (res, s)
  | .r _ s => (.panic, s)

/-- The recursive core of `Eval` (`evaluator/evaluator.go`), one
fuel-structural function over `EvalJob`.  Every recursive call consumes
one unit of fuel; all theorems below either run with ample concrete fuel
or quantify over it.  `Eval` on a node kind with no `switch` case (tensor
literals, nil nodes) falls through to `return nil`; `import` reads the
host filesystem (`host`). -/
def evalGo : Nat → EvalJob → St → EOut
  | 0, j, s =>
    match j with
    | .exprsLoop _ _ _ => .rl .fuel s
    | _ => .r .fuel s
  | fuel + 1, j, s =>
    match j with
    | .expr e envA =>
      match e with
      | .intLit v => .r ((s.alloc (.int v)).map (.ok ∘ some) id).1 ((s.alloc (.int v)).2)
      | .floatLit v =>
        let (r, s1) := s.alloc (.float v)
        .r (.ok (some r)) s1
      | .boolLit b => .r (.ok (some (nativeBoolToBooleanObject b))) s
      | .strLit v =>
        let (r, s1) := s.alloc (.str v)
        .r (.ok (some r)) s1
      | .ident name =>
        let (res, s1) := evalIdentifier s envA name
        .r res s1
      | .prefixE op right =>
        match asR (evalGo fuel (.expr right envA) s) with
        | (.ok r, s1) =>
          if isError s1 r then .r (.ok r) s1
          else
            let (res, s2) := evalPrefixExpression s1 op r
            .r res s2
        | (other, s1) => .r other s1
      | .infixE op l r =>
        match asR (evalGo fuel (.expr l envA) s) with
        | (.ok lv, s1) =>
          if isError s1 lv then .r (.ok lv) s1
          else
            match asR (evalGo fuel (.expr r envA) s1) with
            | (.ok rv, s2) =>
              if isError s2 rv then .r (.ok rv) s2
              else
                let (res, s3) := evalInfixExpression s2 op lv rv
                .r res s3
            | (other, s2) => .r other s2
        | (other, s1) => .r other s1
      | .ifE cond conseq alt =>
        match asR (evalGo fuel (.expr cond envA) s) with
        | (.ok c, s1) =>
          if isError s1 c then .r (.ok c) s1
          else if isTruthy c then evalGo fuel (.blockLoop conseq none envA) s1
          else
            match alt with
            | some altB => evalGo fuel (.blockLoop altB none envA) s1
            | none => .r (.ok (some NULL)) s1
        | (other, s1) => .r other s1
      | .fnLit params body _ =>
        let (r, s1) := s.alloc (.fn params body envA)
        .r (.ok (some r)) s1
      | .callE callee args =>
        match asR (evalGo fuel (.expr callee envA) s) with
        | (.ok fv, s1) =>
          if isError s1 fv then .r (.ok fv) s1
          else
            match asRL (evalGo fuel (.exprsLoop args [] envA) s1) with
            | (.oks vs, s2) =>
              if vs.length == 1 && isError s2 (vs.getD 0 none) then
                .r (.ok (vs.getD 0 none)) s2
              else evalGo fuel (.applyFn fv vs) s2
            | (.panic, s2) => .r .panic s2
            | (.host, s2) => .r .host s2
            | (.fuel, s2) => .r .fuel s2
        | (other, s1) => .r other s1
      | .arrLit elems =>
        match asRL (evalGo fuel (.exprsLoop elems [] envA) s) with
        | (.oks vs, s2) =>
          if vs.length == 1 && isError s2 (vs.getD 0 none) then
            .r (.ok (vs.getD 0 none)) s2
          else
            let (r, s3) := s2.alloc (.arr vs)
            .r (.ok (some r)) s3
        | (.panic, s2) => .r .panic s2
        | (.host, s2) => .r .host s2
        | (.fuel, s2) => .r .fuel s2
      | .indexE l i =>
        match asR (evalGo fuel (.expr l envA) s) with
        | (.ok lv, s1) =>
          if isError s1 lv then .r (.ok lv) s1
          else
            match asR (evalGo fuel (.expr i envA) s1) with
            | (.ok iv, s2) =>
              if isError s2 iv then .r (.ok iv) s2
              else
                let (res, s3) := evalIndexExpression s2 lv iv
                .r res s3
            | (other, s2) => .r other s2
        | (other, s1) => .r other s1
      | .hashLit pairs => evalGo fuel (.hashLoop pairs [] envA) s
      | .tensorLit _ _ => .r (.ok none) s
      | .importLit _ => .r .host s
      | .nilE => .r (.ok none) s
    | .stmt st envA =>
      match st with
      | .letS name value =>
        match asR (evalGo fuel (.expr value envA) s) with
        | (.ok v, s1) =>
          if isError s1 v then .r (.ok v) s1
          else .r (.ok none) (envSet s1 envA name v)
        | (other, s1) => .r other s1
      | .retS value =>
        match asR (evalGo fuel (.expr value envA) s) with
        | (.ok v, s1) =>
          if isError s1 v then .r (.ok v) s1
          else
            let (r, s2) := s1.alloc (.retval v)
            .r (.ok (some r)) s2
        | (other, s1) => .r other s1
      | .exprS e => evalGo fuel (.expr e envA) s
    | .progLoop stmts result envA =>
      match stmts with
      | [] => .r (.ok result) s
      | stmt :: rest =>
        match asR (evalGo fuel (.stmt stmt envA) s) with
        | (.ok r, s1) =>
          match r with
          | some (.heap a) =>
            match s1.read a with
            | .retval v => .r (.ok v) s1
            | .err _ => .r (.ok r) s1
            | _ => evalGo fuel (.progLoop rest r envA) s1
          | _ => evalGo fuel (.progLoop rest r envA) s1
        | (other, s1) => .r other s1
    | .blockLoop stmts result envA =>
      match stmts with
      | [] => .r (.ok result) s
      | stmt :: rest =>
        match asR (evalGo fuel (.stmt stmt envA) s) with
        | (.ok r, s1) =>
          match r with
          | some rr =>
            if typeOf s1 rr == RETURN_VALUE_OBJ || typeOf s1 rr == ERROR_OBJ then
              .r (.ok (some rr)) s1
            else evalGo fuel (.blockLoop rest r envA) s1
          | none => .r .panic s1
        | (other, s1) => .r other s1
    | .exprsLoop es acc envA =>
      match es with
      | [] => .rl (.oks acc) s
      | e :: rest =>
        match asR (evalGo fuel (.expr e envA) s) with
        | (.ok v, s1) =>
          if isError s1 v then .rl (.oks [v]) s1
          else evalGo fuel (.exprsLoop rest (acc ++ [v]) envA) s1
        | (.panic, s1) => .rl .panic s1
        | (.host, s1) => .rl .host s1
        | (.fuel, s1) => .rl .fuel s1
    | .hashLoop pairs acc envA =>
      match pairs with
      | [] =>
        let (r, s1) := s.alloc (.hashv acc)
        .r (.ok (some r)) s1
      | (kExpr, vExpr) :: rest =>
        match asR (evalGo fuel (.expr kExpr envA) s) with
        | (.ok k, s1) =>
          if isError s1 k then .r (.ok k) s1
          else
            match k with
            | none => .r .panic s1
            | some kr =>
              match hashKeyOf s1 kr with
              | none =>
                let (r, s2) := newError s1 ("unusable as hash key: " ++ typeOf s1 kr)
                .r (.ok (some r)) s2
              | some hk =>
                match asR (evalGo fuel (.expr vExpr envA) s1) with
                | (.ok v, s2) =>
                  if isError s2 v then .r (.ok v) s2
                  else
                    evalGo fuel (.hashLoop rest (upsertPair acc hk (kr, v)) envA) s2
                | (other, s2) => .r other s2
        | (other, s1) => .r other s1
    | .applyFn fn args =>
      match fn with
      | none => .r .panic s
      | some fv =>
        match fv with
        | .heap a =>
          match s.read a with
          | .fn params body fnEnv =>
            match extendFunctionEnv s params fnEnv args with
            | none => .r .panic s
            | some (newEnv, s1) =>
              match asR (evalGo fuel (.blockLoop body none newEnv) s1) with
              | (.ok v, s2) => .r (.ok (unwrapReturnValue s2 v)) s2
              | (other, s2) => .r other s2
          | .builtin name =>
            match callBuiltinFn s name args with
            | (.ok (some v), s1) => .r (.ok (some v)) s1
            | (.ok none, s1) => .r (.ok (some NULL)) s1
            | (other, s1) => .r other s1
          | _ =>
            let (r, s1) := newError s ("not a function: " ++ typeOf s fv)
            .r (.ok (some r)) s1
        | _ =>
          let (r, s1) := newError s ("not a function: " ++ typeOf s fv)
          .r (.ok (some r)) s1

/-- `Eval` on expression nodes. -/
def evalExpr (fuel : Nat) (e : Expr) (envA : Nat) (s : St) : Res × St :=
  asR (evalGo fuel (.expr e envA) s)

/-- `Eval` on statement nodes. -/
def evalStmt (fuel : Nat) (st : Stmt) (envA : Nat) (s : St) : Res × St :=
  asR (evalGo fuel (.stmt st envA) s)

/-- The loop of `evalProgram`. -/
def evalProgramLoop (fuel : Nat) (stmts : List Stmt) (result : Option ObjRef)
    (envA : Nat) (s : St) : Res × St :=
  asR (evalGo fuel (.progLoop stmts result envA) s)

/-- The loop of `evalBlockStatement`. -/
def evalBlockLoop (fuel : Nat) (stmts : List Stmt) (result : Option ObjRef)
    (envA : Nat) (s : St) : Res × St :=
  asR (evalGo fuel (.blockLoop stmts result envA) s)

/-- The loop of `evalExpressions`. -/
def evalExpressionsLoop (fuel : Nat) (es : List Expr)
    (acc : List (Option ObjRef)) (envA : Nat) (s : St) : ResList × St :=
  asRL (evalGo fuel (.exprsLoop es acc envA) s)

/-- The loop of `evalHashLiteral`. -/
def evalHashLoop (fuel : Nat) (pairs : List (Expr × Expr))
    (acc : List (HashKey × ObjRef × Option ObjRef)) (envA : Nat) (s : St) :
    Res × St :=
  asR (evalGo fuel (.hashLoop pairs acc envA) s)

/-- `applyFunction`. -/
def applyFunction (fuel : Nat) (fn : Option ObjRef)
    (args : List (Option ObjRef)) (s : St) : Res × St :=
  asR (evalGo fuel (.applyFn fn args) s)

/-- Evaluate a whole program from the initial state, as the test harness
`testEval` does: lex, parse, then `Eval(program, NewEnvironment())`.  The
AST is supplied directly. -/
def runEvaluator (fuel : Nat) (prog : List Stmt) : Res × St :=
  evalProgramLoop fuel prog none 0 initSt

/-! The lexer (part_003) and the token kinds (part_004).  The input is the
source's byte sequence; all claim inputs are ASCII. -/

namespace token

def ILLEGAL : String := "ILLEGAL"
def EOF : String := "EOF"
def IDENT : String := "IDENT"
def INT : String := "INT"
def FLOAT : String := "FLOAT"
def STRING : String := "STRING"
def ASSIGN : String := "="
def PLUS : String := "+"
def MINUS : String := "-"
def BANG : String := "!"
def ASTERISK : String := "*"
def SLASH : String := "/"
def COMMA : String := ","
def SEMICOLON : String := ";"
def COLON : String := ":"
def LPAREN : String := "("
def RPAREN : String := ")"
def LBRACE : String := "\x7b"
def RBRACE : String := "\x7d"
def LBRACKET : String := "["
def RBRACKET : String := "]"
def AT : String := "@"
def FUNCTION : String := "FUNCTION"
def IMPORT : String := "IMPORT"
def LET : String := "LET"
def TRUE : String := "TRUE"
def FALSE : String := "FALSE"
def IF : String := "IF"
def ELSE : String := "ELSE"
def RETURN : String := "RETURN"
def LT : String := "<"
def GT : String := ">"
def EQ : String := "=="
def NOT_EQ : String := "!="

/-- The keyword table. -/
def keywords : String → Option String := fun s =>
  if s == "fn" then some FUNCTION
  else if s == "import" then some IMPORT
  else if s == "let" then some LET
  else if s == "true" then some TRUE
  else if s == "false" then some FALSE
  else if s == "if" then some IF
  else if s == "else" then some ELSE
  else if s == "return" then some RETURN
  else none

/-- `token.LookupIdent`. -/
def LookupIdent (ident : String) : String :=
  match keywords ident with
  | some t => t
  | none => IDENT

end token

/-- A `token.Token`: kind, literal, and the line it was (supposedly)
produced on.  The Go zero value has line 0. -/
structure Token where
  type_ : String
  literal : String
  line : Nat
deriving DecidableEq, Repr

/-- The lexer state (`lexer.Lexer`); bytes are `Nat` character codes. -/
structure Lexer where
  input : List Nat
  position : Nat
  readPosition : Nat
  ch : Nat
  line : Nat
deriving Repr

/-- `readChar`. -/
def readChar (l : Lexer) : Lexer :=
  let c := if l.readPosition ≥ l.input.length then 0 else (l.input.get? l.readPosition).getD 0
  { l with ch := c, position := l.readPosition, readPosition := l.readPosition + 1 }

/-- `lexer.New`. -/
def lexerNew (input : List Nat) : Lexer :=
  readChar { input := input, position := 0, readPosition := 0, ch := 0, line := 0 }

/-- `peekCharacter`. -/
def peekCharacter (l : Lexer) : Nat :=
  if l.readPosition ≥ l.input.length then 0 else (l.input.get? l.readPosition).getD 0

/-- The loop of `skipWhitespace`; newlines increment the line counter.
The fuel only bounds the loop, which always exits within
`input.length + 2` steps because each `readChar` advances the position. -/
def skipWhitespaceF : Nat → Lexer → Lexer
  | 0, l => l
  | f + 1, l =>
    if l.ch == 32 || l.ch == 9 || l.ch == 10 || l.ch == 13 then
      skipWhitespaceF f (readChar (if l.ch == 10 then { l with line := l.line + 1 } else l))
    else l

/-- `skipWhitespace` with sufficient fuel. -/
def skipWhitespace (l : Lexer) : Lexer :=
  skipWhitespaceF (l.input.length + 2) l

/-- `isDigit`. -/
def isDigit (ch : Nat) : Bool := 48 ≤ ch && ch ≤ 57

/-- `isDecimal`. -/
def isDecimal (ch : Nat) : Bool := ch == 46

/-- `isLetter`. -/
def isLetter (ch : Nat) : Bool :=
  (97 ≤ ch && ch ≤ 122) || (65 ≤ ch && ch ≤ 90) || ch == 95

/-- ASCII bytes back to a string slice (`l.input[a:b]`). -/
def sliceStr (input : List Nat) (a b : Nat) : String :=
  String.mk (((input.drop a).take (b - a)).map Char.ofNat)

/-- One byte as a string (`string(ch)`). -/
def byteStr (ch : Nat) : String := String.singleton (Char.ofNat ch)

/-- The loop of `readString` (consume until a closing quote or
end-of-input). -/
def readStringF : Nat → Lexer → Lexer
  | 0, l => l
  | f + 1, l =>
    let l1 := readChar l
    if l1.ch == 34 || l1.ch == 0 then l1 else readStringF f l1

/-- `readString`. -/
def readString (l : Lexer) : String × Lexer :=
  let start := l.position + 1
  let l1 := readStringF (l.input.length + 2) l
  (sliceStr l.input start l1.position, l1)

/-- The loop of `readNumber` (the token's line field is never assigned and
stays 0). -/
def readNumberF : Nat → Lexer → String → Lexer × String
  | 0, l, ty => (l, ty)
  | f + 1, l, ty =>
    if isDigit l.ch || isDecimal l.ch then
      readNumberF f (readChar l) (if isDecimal l.ch then token.FLOAT else ty)
    else (l, ty)

/-- `readNumber`: returns the INT/FLOAT token (with line 0, the Go zero
value) and the advanced lexer. -/
def readNumber (l : Lexer) : Token × Lexer :=
  let start := l.position
  let (l1, ty) := readNumberF (l.input.length + 2) l token.INT
  ({ type_ := ty, literal := sliceStr l.input start l1.position, line := 0 }, l1)

/-- The loop of `readIdentifier`. -/
def readIdentifierF : Nat → Lexer → Lexer
  | 0, l => l
  | f + 1, l => if isLetter l.ch then readIdentifierF f (readChar l) else l

/-- `readIdentifier`. -/
def readIdentifier (l : Lexer) : String × Lexer :=
  let start := l.position
  let l1 := readIdentifierF (l.input.length + 2) l
  (sliceStr l.input start l1.position, l1)

/-- `newToken`: kind and one-byte literal; the line field is the Go zero
value until (and unless) the caller assigns it. -/
def newToken (ty : String) (ch : Nat) : Token :=
  { type_ := ty, literal := byteStr ch, line := 0 }

/-- Finish a `NextToken` branch that reaches the function's tail:
`tok.Line = l.line` followed by `l.readChar()`. -/
def finishToken (tok : Token) (l : Lexer) : Token × Lexer :=
  ({ tok with line := l.line }, readChar l)

/-- `NextToken`.  The identifier/keyword and number branches `return`
BEFORE the `tok.Line = l.line` assignment, so those tokens keep line 0. -/
def nextToken (l0 : Lexer) : Token × Lexer :=
  let l := skipWhitespace l0
  if l.ch == 61 then
    if peekCharacter l == 61 then
      let c := l.ch
      let l1 := readChar l
      finishToken { type_ := token.EQ, literal := byteStr c ++ byteStr l1.ch, line := 0 } l1
    else finishToken (newToken token.ASSIGN l.ch) l
  else if l.ch == 33 then
    if peekCharacter l == 61 then
      let c := l.ch
      let l1 := readChar l
      finishToken { type_ := token.NOT_EQ, literal := byteStr c ++ byteStr l1.ch, line := 0 } l1
    else finishToken (newToken token.BANG l.ch) l
  else if l.ch == 59 then finishToken (newToken token.SEMICOLON l.ch) l
  else if l.ch == 58 then finishToken (newToken token.COLON l.ch) l
  else if l.ch == 40 then finishToken (newToken token.LPAREN l.ch) l
  else if l.ch == 41 then finishToken (newToken token.RPAREN l.ch) l
  else if l.ch == 44 then finishToken (newToken token.COMMA l.ch) l
  else if l.ch == 43 then finishToken (newToken token.PLUS l.ch) l
  else if l.ch == 45 then finishToken (newToken token.MINUS l.ch) l
  else if l.ch == 47 then finishToken (newToken token.SLASH l.ch) l
  else if l.ch == 42 then finishToken (newToken token.ASTERISK l.ch) l
  else if l.ch == 60 then finishToken (newToken token.LT l.ch) l
  else if l.ch == 62 then finishToken (newToken token.GT l.ch) l
  else if l.ch == 123 then finishToken (newToken token.LBRACE l.ch) l
  else if l.ch == 125 then finishToken (newToken token.RBRACE l.ch) l
  else if l.ch == 91 then finishToken (newToken token.LBRACKET l.ch) l
  else if l.ch == 93 then finishToken (newToken token.RBRACKET l.ch) l
  else if l.ch == 64 then finishToken (newToken token.AT l.ch) l
  else if l.ch == 34 then
    let (lit, l1) := readString l
    finishToken { type_ := token.STRING, literal := lit, line := 0 } l1
  else if l.ch == 0 then
    finishToken { type_ := token.EOF, literal := "", line := 0 } l
  else if isLetter l.ch then
    let (lit, l1) := readIdentifier l
    ({ type_ := token.LookupIdent lit, literal := lit, line := 0 }, l1)
  else if isDigit l.ch then
    readNumber l
  else
    finishToken (newToken token.ILLEGAL l.ch) l

/-- Source text to its byte list. -/
def srcBytes (s : String) : List Nat := strBytes s

/-! The Pratt parser (part_006).  The token stream is the list of tokens
still to be delivered beyond `peekToken`; once it is exhausted the lexer
keeps returning its final `EOF` token, so streams fed to the parser end
with that token and `nextToken` then leaves `peekToken` unchanged. -/

/-- Parser state (`parser.Parser`): pending stream, current and peek
tokens, accumulated error messages. -/
structure PState where
  toks : List Token
  curToken : Token
  peekToken : Token
  errors : List String
deriving Repr

/-- `Parser.nextToken`. -/
def pNextToken (p : PState) : PState :=
  match p.toks with
  | [] => { p with curToken := p.peekToken }
  | t :: rest => { p with curToken := p.peekToken, peekToken := t, toks := rest }

/-- `parser.New`: prime `curToken` and `peekToken` with two reads. -/
def parserNew (toks : List Token) : PState :=
  pNextToken (pNextToken
    { toks := toks
      curToken := { type_ := "", literal := "", line := 0 }
      peekToken := { type_ := "", literal := "", line := 0 }
      errors := [] })

/-- Precedence table plus the `LOWEST` default (LOWEST=1 … INDEX=8). -/
def precedenceOf (t : String) : Nat :=
  if t == token.EQ || t == token.NOT_EQ then 2
  else if t == token.LT || t == token.GT then 3
  else if t == token.PLUS || t == token.MINUS then 4
  else if t == token.SLASH || t == token.ASTERISK then 5
  else if t == token.LPAREN then 7
  else if t == token.LBRACKET then 8
  else 1

/-- `peekError`. -/
def peekError (p : PState) (t : String) : PState :=
  { p with errors := p.errors ++
      ["On line " ++ toString p.curToken.line ++ ", expected next token to be "
        ++ t ++ ", got " ++ p.peekToken.type_ ++ " instead"] }

/-- `noPrefixParseFnError`. -/
def noPrefixParseFnError (p : PState) (t : String) : PState :=
  { p with errors := p.errors ++
      ["On line " ++ toString p.curToken.line ++ ", no prefix parse function for "
        ++ t ++ " found"] }

/-- `expectPeek`. -/
def expectPeek (p : PState) (t : String) : Bool × PState :=
  if p.peekToken.type_ == t then (true, pNextToken p)
  else (false, peekError p t)

/-- Go's `strconv.ParseInt(s, 0, 64)` restricted to the literals the lexer
can produce (nonempty digit runs): base 0 makes a leading `0` select
octal; a digit outside the base or a value beyond the `int64` range is an
error (`none`). -/
def goParseInt (s : String) : Option Int :=
  let ds := s.data
  if ds.isEmpty || ds.any (fun c => !(c.toNat ≥ 48 && c.toNat ≤ 57)) then none
  else
    match ds with
    | '0' :: [] => some 0
    | '0' :: rest =>
      if rest.all (fun c => c.toNat ≥ 48 && c.toNat ≤ 55) then
        let v : Nat := rest.foldl (fun a c => a * 8 + (c.toNat - 48)) 0
        if v < 2 ^ 63 then some (v : Int) else none
      else none
    | _ =>
      let v : Nat := ds.foldl (fun a c => a * 10 + (c.toNat - 48)) 0
      if v < 2 ^ 63 then some (v : Int) else none

/-- Split a character list at the `.` characters. -/
def dotSplit : List Char → List (List Char)
  | [] => [[]]
  | '.' :: rest => [] :: dotSplit rest
  | c :: rest =>
    match dotSplit rest with
    | h :: t => (c :: h) :: t
    | [] => [[c]]

/-- Go's `strconv.ParseFloat(s, 64)` restricted to the lexer's number
literals (digit runs with embedded dots): one dot yields the decimal
value (exact here; the dyadic literals used in the theorems are exactly
representable in binary64), a second dot is an error. -/
def goParseFloat (s : String) : Option F64 :=
  let digitsOk := fun (t : List Char) => t.all (fun c => c.toNat ≥ 48 && c.toNat ≤ 57)
  match dotSplit s.data with
  | [a] =>
    if a.length > 0 && digitsOk a then
      some ((a.foldl (fun acc c => acc * 10 + (c.toNat - 48)) 0 : Nat) : F64)
    else none
  | [a, b] =>
    if a.length > 0 && digitsOk a && digitsOk b then
      let ip : Nat := a.foldl (fun acc c => acc * 10 + (c.toNat - 48)) 0
      let fp : Nat := b.foldl (fun acc c => acc * 10 + (c.toNat - 48)) 0
      some ((ip : F64) + (fp : F64) / ((10 : F64) ^ b.length))
    else none
  | _ => none

/-- `parseIntegerLiteral`. -/
def parseIntegerLiteral (p : PState) : Option Expr × PState :=
  match goParseInt p.curToken.literal with
  | some v => (some (.intLit v), p)
  | none =>
    (none, { p with errors := p.errors ++
      ["Syntax error on line " ++ toString p.curToken.line ++ ": could not parse \""
        ++ p.curToken.literal ++ "\" as integer"] })

/-- `parseFloatLiteral`. -/
def parseFloatLiteral (p : PState) : Option Expr × PState :=
  match goParseFloat p.curToken.literal with
  | some v => (some (.floatLit v), p)
  | none =>
    (none, { p with errors := p.errors ++
      ["Syntax error on line " ++ toString p.curToken.line ++ ": could not parse \""
        ++ p.curToken.literal ++ "\" as float"] })

/-- A nil `ast.Expression` stored in a node. -/
def orNil : Option Expr → Expr
  | some e => e
  | none => .nilE

/-- The trailing loop of `parseLetStatement` and `parseReturnStatement`:
`for !p.currentTokenIs(token.SEMICOLON) { p.nextToken() }`.  There is no
EOF check, so the loop terminates only if a `;` is still reachable;
`none` is fuel exhaustion. -/
def skipToSemicolonF : Nat → PState → Option PState
  | 0, _ => none
  | f + 1, p =>
    if p.curToken.type_ == token.SEMICOLON then some p
    else skipToSemicolonF f (pNextToken p)

/-- The loop of `parseImportLiteral`:
`for !p.peekTokenIs(token.SEMICOLON) { p.nextToken(); path = cur.Literal }`. -/
def importLoopF : Nat → String → PState → Option (String × PState)
  | 0, _, _ => none
  | f + 1, path, p =>
    if p.peekToken.type_ == token.SEMICOLON then some (path, p)
    else
      let p1 := pNextToken p
      importLoopF f p1.curToken.literal p1

/-- The comma loop of `parseFunctionParameters`. -/
def funcParamsLoop : Nat → List String → PState → Option (List String) × PState
  | 0, _, q => (none, q)
  | g + 1, acc, q =>
    if q.peekToken.type_ == token.COMMA then
      let q1 := pNextToken (pNextToken q)
      funcParamsLoop g (acc ++ [q1.curToken.literal]) q1
    else
      match expectPeek q token.RPAREN with
      | (true, q1) => (some acc, q1)
      | (false, q1) => (none, q1)

/-- `parseFunctionParameters` (identifier list between parentheses). -/
def parseFunctionParametersF : Nat → PState → Option (List String) × PState
  | 0, p => (none, p)
  | _ + 1, p =>
    if p.peekToken.type_ == token.RPAREN then (some [], pNextToken p)
    else
      let p1 := pNextToken p
      funcParamsLoop (p1.toks.length + 2) [p1.curToken.literal] p1

/-- Token kinds with a registered prefix parse function. -/
def isPrefixRegistered (ty : String) : Bool :=
  ty == token.IDENT || ty == token.INT || ty == token.FLOAT || ty == token.BANG
    || ty == token.MINUS || ty == token.TRUE || ty == token.FALSE
    || ty == token.LPAREN || ty == token.IF || ty == token.FUNCTION
    || ty == token.IMPORT || ty == token.STRING || ty == token.LBRACKET
    || ty == token.LBRACE || ty == token.AT

/-- Token kinds with a registered infix parse function. -/
def isInfixRegistered (ty : String) : Bool :=
  ty == token.PLUS || ty == token.MINUS || ty == token.SLASH
    || ty == token.ASTERISK || ty == token.EQ || ty == token.NOT_EQ
    || ty == token.LT || ty == token.GT || ty == token.LPAREN
    || ty == token.LBRACKET

/-- Result of a fuel-consuming parser production: a Go return (with the
updated parser) or fuel exhaustion. -/
inductive PRes (α : Type) where
  | ret (v : α) (p : PState)
  | out

mutual

/-- `parseStatement` dispatch. -/
def parseStatement : Nat → PState → PRes (Option Stmt)
  | 0, _ => .out
  | f + 1, p =>
    if p.curToken.type_ == token.LET then parseLetStatement f p
    else if p.curToken.type_ == token.RETURN then parseReturnStatement f p
    else parseExpressionStatement f p

/-- `parseLetStatement`: `let IDENT = expression`, then the semicolon
skip loop; a function-literal value receives the bound name. -/
def parseLetStatement : Nat → PState → PRes (Option Stmt)
  | 0, _ => .out
  | f + 1, p =>
    match expectPeek p token.IDENT with
    | (false, p1) => .ret none p1
    | (true, p1) =>
      let name := p1.curToken.literal
      match expectPeek p1 token.ASSIGN with
      | (false, p2) => .ret none p2
      | (true, p2) =>
        let p3 := pNextToken p2
        match parseExpressionF f 1 p3 with
        | .out => .out
        | .ret v p4 =>
          let value :=
            match orNil v with
            | .fnLit ps b _ => Expr.fnLit ps b name
            | e => e
          match skipToSemicolonF f p4 with
          | none => .out
          | some p5 => .ret (some (.letS name value)) p5

/-- `parseReturnStatement`: expression, then the same skip loop. -/
def parseReturnStatement : Nat → PState → PRes (Option Stmt)
  | 0, _ => .out
  | f + 1, p =>
    let p1 := pNextToken p
    match parseExpressionF f 1 p1 with
    | .out => .out
    | .ret v p2 =>
      match skipToSemicolonF f p2 with
      | none => .out
      | some p3 => .ret (some (.retS (orNil v))) p3

/-- `parseExpressionStatement`: expression plus an optional `;`. -/
def parseExpressionStatement : Nat → PState → PRes (Option Stmt)
  | 0, _ => .out
  | f + 1, p =>
    match parseExpressionF f 1 p with
    | .out => .out
    | .ret v p1 =>
      let p2 := if p1.peekToken.type_ == token.SEMICOLON then pNextToken p1 else p1
      .ret (some (.exprS (orNil v))) p2

/-- `parseExpression`: prefix dispatch, then the Pratt loop. -/
def parseExpressionF : Nat → Nat → PState → PRes (Option Expr)
  | 0, _, _ => .out
  | f + 1, prec, p =>
    match prefixDispatch f p.curToken.type_ p with
    | none => .ret none (noPrefixParseFnError p p.curToken.type_)
    | some r =>
      match r with
      | .out => .out
      | .ret left p1 => prattLoop f prec left p1

/-- The `for` loop of `parseExpression`. -/
def prattLoop : Nat → Nat → Option Expr → PState → PRes (Option Expr)
  | 0, _, _, _ => .out
  | f + 1, prec, left, p =>
    if !(p.peekToken.type_ == token.SEMICOLON) && prec < precedenceOf p.peekToken.type_ then
      if isInfixRegistered p.peekToken.type_ then
        let p1 := pNextToken p
        match infixDispatch f p1.curToken.type_ left p1 with
        | .out => .out
        | .ret newLeft p2 => prattLoop f prec newLeft p2
      else .ret left p
    else .ret left p

/-- The registered prefix parse functions; `none` means unregistered. -/
def prefixDispatch : Nat → String → PState → Option (PRes (Option Expr))
  | 0, ty, _ => if isPrefixRegistered ty then some .out else none
  | f + 1, ty, p =>
    if ty == token.IDENT then
      some (.ret (some (.ident p.curToken.literal)) p)
    else if ty == token.INT then
      let (e, p1) := parseIntegerLiteral p
      some (.ret e p1)
    else if ty == token.FLOAT then
      let (e, p1) := parseFloatLiteral p
      some (.ret e p1)
    else if ty == token.BANG || ty == token.MINUS then
      some (parsePrefixExpression f p)
    else if ty == token.TRUE || ty == token.FALSE then
      some (.ret (some (.boolLit (p.curToken.type_ == token.TRUE))) p)
    else if ty == token.LPAREN then
      some (parseGroupedExpression f p)
    else if ty == token.IF then
      some (parseIfExpression f p)
    else if ty == token.FUNCTION then
      some (parseFunctionLiteral f p)
    else if ty == token.IMPORT then
      some (parseImportLiteral f p)
    else if ty == token.STRING then
      some (.ret (some (.strLit p.curToken.literal)) p)
    else if ty == token.LBRACKET then
      some (parseArrayLiteral f p)
    else if ty == token.LBRACE then
      some (parseHashLiteral f p)
    else if ty == token.AT then
      some (parseTensorLiteral f p)
    else none

/-- The registered infix parse functions. -/
def infixDispatch : Nat → String → Option Expr → PState → PRes (Option Expr)
  | 0, _, _, _ => .out
  | f + 1, ty, left, p =>
    if ty == token.LPAREN then parseCallExpression f left p
    else if ty == token.LBRACKET then parseIndexExpressionF f left p
    else parseInfixExpression f left p

/-- `parsePrefixExpression`. -/
def parsePrefixExpression : Nat → PState → PRes (Option Expr)
  | 0, _ => .out
  | f + 1, p =>
    let op := p.curToken.literal
    let p1 := pNextToken p
    match parseExpressionF f 6 p1 with
    | .out => .out
    | .ret right p2 => .ret (some (.prefixE op (orNil right))) p2

/-- `parseInfixExpression`. -/
def parseInfixExpression : Nat → Option Expr → PState → PRes (Option Expr)
  | 0, _, _ => .out
  | f + 1, left, p =>
    let op := p.curToken.literal
    let prec := precedenceOf p.curToken.type_
    let p1 := pNextToken p
    match parseExpressionF f prec p1 with
    | .out => .out
    | .ret right p2 => .ret (some (.infixE op (orNil left) (orNil right))) p2

/-- `parseGroupedExpression`. -/
def parseGroupedExpression : Nat → PState → PRes (Option Expr)
  | 0, _ => .out
  | f + 1, p =>
    let p1 := pNextToken p
    match parseExpressionF f 1 p1 with
    | .out => .out
    | .ret e p2 =>
      match expectPeek p2 token.RPAREN with
      | (false, p3) => .ret none p3
      | (true, p3) => .ret e p3

/-- `parseIfExpression`. -/
def parseIfExpression : Nat → PState → PRes (Option Expr)
  | 0, _ => .out
  | f + 1, p =>
    match expectPeek p token.LPAREN with
    | (false, p1) => .ret none p1
    | (true, p1) =>
      let p2 := pNextToken p1
      match parseExpressionF f 1 p2 with
      | .out => .out
      | .ret cond p3 =>
        match expectPeek p3 token.RPAREN with
        | (false, p4) => .ret none p4
        | (true, p4) =>
          match expectPeek p4 token.LBRACE with
          | (false, p5) => .ret none p5
          | (true, p5) =>
            match parseBlockStatement f p5 with
            | .out => .out
            | .ret conseq p6 =>
              if p6.peekToken.type_ == token.ELSE then
                let p7 := pNextToken p6
                match expectPeek p7 token.LBRACE with
                | (false, p8) => .ret none p8
                | (true, p8) =>
                  match parseBlockStatement f p8 with
                  | .out => .out
                  | .ret alt p9 =>
                    .ret (some (.ifE (orNil cond) conseq (some alt))) p9
              else .ret (some (.ifE (orNil cond) conseq none)) p6

/-- `parseBlockStatement`: statements until `}` or EOF. -/
def parseBlockStatement : Nat → PState → PRes (List Stmt)
  | 0, _ => .out
  | f + 1, p => blockLoop f [] (pNextToken p)

/-- The loop of `parseBlockStatement`. -/
def blockLoop : Nat → List Stmt → PState → PRes (List Stmt)
  | 0, _, _ => .out
  | f + 1, acc, p =>
    if !(p.curToken.type_ == token.RBRACE) && !(p.curToken.type_ == token.EOF) then
      match parseStatement f p with
      | .out => .out
      | .ret stmt? p1 =>
        let acc1 := match stmt? with | some st => acc ++ [st] | none => acc
        blockLoop f acc1 (pNextToken p1)
    else .ret acc p

/-- `parseFunctionLiteral` (the name is filled in by `parseLetStatement`). -/
def parseFunctionLiteral : Nat → PState → PRes (Option Expr)
  | 0, _ => .out
  | f + 1, p =>
    match expectPeek p token.LPAREN with
    | (false, p1) => .ret none p1
    | (true, p1) =>
      let (params?, p2) := parseFunctionParametersF (p1.toks.length + 2) p1
      match expectPeek p2 token.LBRACE with
      | (false, p3) => .ret none p3
      | (true, p3) =>
        match parseBlockStatement f p3 with
        | .out => .out
        | .ret body p4 => .ret (some (.fnLit (params?.getD []) body "")) p4

/-- `parseCallExpression`. -/
def parseCallExpression : Nat → Option Expr → PState → PRes (Option Expr)
  | 0, _, _ => .out
  | f + 1, left, p =>
    match parseExpressionList f token.RPAREN p with
    | .out => .out
    | .ret args? p1 => .ret (some (.callE (orNil left) (args?.getD []))) p1

/-- `parseIndexExpression`. -/
def parseIndexExpressionF : Nat → Option Expr → PState → PRes (Option Expr)
  | 0, _, _ => .out
  | f + 1, left, p =>
    let p1 := pNextToken p
    match parseExpressionF f 1 p1 with
    | .out => .out
    | .ret idx p2 =>
      match expectPeek p2 token.RBRACKET with
      | (false, p3) => .ret none p3
      | (true, p3) => .ret (some (.indexE (orNil left) (orNil idx))) p3

/-- `parseArrayLiteral`. -/
def parseArrayLiteral : Nat → PState → PRes (Option Expr)
  | 0, _ => .out
  | f + 1, p =>
    match parseExpressionList f token.RBRACKET p with
    | .out => .out
    | .ret elems? p1 => .ret (some (.arrLit (elems?.getD []))) p1

/-- `parseExpressionList` / `parseCallArguments` (they are identical up
to the closing token). -/
def parseExpressionList : Nat → String → PState → PRes (Option (List Expr))
  | 0, _, _ => .out
  | f + 1, endTy, p =>
    if p.peekToken.type_ == endTy then .ret (some []) (pNextToken p)
    else
      let p1 := pNextToken p
      match parseExpressionF f 1 p1 with
      | .out => .out
      | .ret e p2 => exprListLoop f endTy [orNil e] p2

/-- The comma loop of `parseExpressionList`. -/
def exprListLoop : Nat → String → List Expr → PState → PRes (Option (List Expr))
  | 0, _, _, _ => .out
  | f + 1, endTy, acc, p =>
    if p.peekToken.type_ == token.COMMA then
      let p1 := pNextToken (pNextToken p)
      match parseExpressionF f 1 p1 with
      | .out => .out
      | .ret e p2 => exprListLoop f endTy (acc ++ [orNil e]) p2
    else
      match expectPeek p endTy with
      | (false, p1) => .ret none p1
      | (true, p1) => .ret (some acc) p1

/-- `parseHashLiteral`. -/
def parseHashLiteral : Nat → PState → PRes (Option Expr)
  | 0, _ => .out
  | f + 1, p => hashLoop f [] p

/-- The pair loop of `parseHashLiteral`. -/
def hashLoop : Nat → List (Expr × Expr) → PState → PRes (Option Expr)
  | 0, _, _ => .out
  | f + 1, acc, p =>
    if !(p.peekToken.type_ == token.RBRACE) then
      let p1 := pNextToken p
      match parseExpressionF f 1 p1 with
      | .out => .out
      | .ret key p2 =>
        match expectPeek p2 token.COLON with
        | (false, p3) => .ret none p3
        | (true, p3) =>
          let p4 := pNextToken p3
          match parseExpressionF f 1 p4 with
          | .out => .out
          | .ret value p5 =>
            let acc1 := acc ++ [(orNil key, orNil value)]
            if !(p5.peekToken.type_ == token.RBRACE) then
              match expectPeek p5 token.COMMA with
              | (false, p6) => .ret none p6
              | (true, p6) => hashLoop f acc1 p6
            else hashLoop f acc1 p5
    else
      match expectPeek p token.RBRACE with
      | (false, p1) => .ret none p1
      | (true, p1) => .ret (some (.hashLit acc)) p1

/-- `parseTensorLiteral`: `@ [shape] , data`. -/
def parseTensorLiteral : Nat → PState → PRes (Option Expr)
  | 0, _ => .out
  | f + 1, p =>
    match expectPeek p token.LBRACKET with
    | (false, p1) => .ret none p1
    | (true, p1) =>
      match parseExpressionF f 1 p1 with
      | .out => .out
      | .ret shape? p2 =>
        match shape? with
        | none => .ret none p2
        | some shape =>
          match expectPeek p2 token.COMMA with
          | (false, p3) => .ret none p3
          | (true, p3) =>
            let p4 := pNextToken p3
            match parseExpressionF f 1 p4 with
            | .out => .out
            | .ret dat? p5 =>
              match dat? with
              | none => .ret none p5
              | some dat => .ret (some (.tensorLit shape dat)) p5

/-- `parseImportLiteral` (its path-scan loop also lacks an EOF check). -/
def parseImportLiteral : Nat → PState → PRes (Option Expr)
  | 0, _ => .out
  | f + 1, p =>
    match importLoopF f p.curToken.literal p with
    | none => .out
    | some (path, p1) => .ret (some (.importLit path)) p1

end

/-- The loop of `ParseProgram`. -/
def programLoop : Nat → List Stmt → PState → PRes (List Stmt)
  | 0, _, _ => .out
  | f + 1, acc, p =>
    if p.curToken.type_ == token.EOF then .ret acc p
    else
      match parseStatement f p with
      | .out => .out
      | .ret stmt? p1 =>
        let acc1 := match stmt? with | some st => acc ++ [st] | none => acc
        programLoop f acc1 (pNextToken p1)

/-- `ParseProgram` on a token stream. -/
def parseProgramF (fuel : Nat) (toks : List Token) : PRes (List Stmt) :=
  programLoop fuel [] (parserNew toks)

/-- Lex a whole source: the token list up to and including the first
`EOF` token. -/
def lexTokens : Nat → Lexer → List Token
  | 0, _ => []
  | f + 1, l =>
    let (t, l1) := nextToken l
    if t.type_ == token.EOF then [t] else t :: lexTokens f l1

/-- Tokens of a source string (ample fuel: one token needs at least one
byte, plus the final EOF). -/
def tokensOfSource (src : String) : List Token :=
  lexTokens ((srcBytes src).length + 2) (lexerNew (srcBytes src))

/-- Lex and parse a source string. -/
def parseSource (fuel : Nat) (src : String) : PRes (List Stmt) :=
  parseProgramF fuel (tokensOfSource src)

/-! The virtual machine (part_009) and its frames (`vm/frame.go`).

The `code` package is not under `src/`; opcode byte values and
`Make`/`ReadUint16` are modelled from the spec (section 4.5): one opcode
byte followed by big-endian operands of fixed per-opcode widths.  The
concrete numbering is unobservable as long as the (also modelled)
compiler and the VM agree.

The VM shares the `object` package with the evaluator, so its heap reuses
`Payload`/`St` (the environment component is unused), and `callBuiltin`
invokes the same shared registry functions.  The `vm` package's
`True`/`False`/`Null` singletons are distinct Go allocations from the
evaluator's, but no single run ever mixes the two backends, so both are
modelled by the same distinguished references. -/

def COMPILED_FUNCTION_OBJ : String := "COMPILED_FUNCTION"
def CLOSURE_OBJ : String := "CLOSURE"

def OpConstant : Nat := 0
def OpPop : Nat := 1
def OpAdd : Nat := 2
def OpSub : Nat := 3
def OpMul : Nat := 4
def OpDiv : Nat := 5
def OpTrue : Nat := 6
def OpFalse : Nat := 7
def OpNull : Nat := 8
def OpEqual : Nat := 9
def OpNotEqual : Nat := 10
def OpGreaterThan : Nat := 11
def OpBang : Nat := 12
def OpMinus : Nat := 13
def OpJumpNotTruthy : Nat := 14
def OpJump : Nat := 15
def OpSetGlobal : Nat := 16
def OpGetGlobal : Nat := 17
def OpSetLocal : Nat := 18
def OpGetLocal : Nat := 19
def OpGetBuiltin : Nat := 20
def OpGetFree : Nat := 21
def OpCurrentClosure : Nat := 22
def OpArray : Nat := 23
def OpHash : Nat := 24
def OpIndex : Nat := 25
def OpCall : Nat := 26
def OpReturnValue : Nat := 27
def OpReturn : Nat := 28
def OpClosure : Nat := 29
def OpTensor : Nat := 30
def OpImport : Nat := 31

/-- Modelled from the spec: per-opcode operand byte widths (section 4.5). -/
def operandWidths (op : Nat) : List Nat :=
  if op == OpConstant || op == OpJump || op == OpJumpNotTruthy
      || op == OpSetGlobal || op == OpGetGlobal || op == OpArray
      || op == OpHash || op == OpTensor || op == OpImport then [2]
  else if op == OpSetLocal || op == OpGetLocal || op == OpGetBuiltin
      || op == OpGetFree || op == OpCall then [1]
  else if op == OpClosure then [2, 1]
  else []

/-- Modelled from the spec: `code.Make`, the instruction assembler. -/
def Make (op : Nat) (operands : List Nat) : List Nat :=
  op :: ((operandWidths op).zip operands).foldr
    (fun wv acc =>
      (if wv.1 == 2 then [wv.2 / 256 % 256, wv.2 % 256] else [wv.2 % 256]) ++ acc) []

/-- `code.ReadUint16` at an offset (big-endian). -/
def readU16 (ins : List Nat) (i : Nat) : Nat :=
  (ins.getD i 0) * 256 + ins.getD (i + 1) 0

/-- `code.ReadUint8` at an offset. -/
def readU8 (ins : List Nat) (i : Nat) : Nat := ins.getD i 0

def StackeSize : Nat := 8192
def GlobalsSize : Nat := 65536
def MaxFrames : Nat := 4096

/-- A VM call frame (`vm/frame.go` plus the closure-carrying variant used
by part_009): the running closure, instruction pointer (starting at -1)
and base pointer. -/
structure VmFrame where
  clA : Nat
  ip : Int
  basePointer : Nat
deriving Repr

/-- The VM state (`vm.VM`): object store, constants pool, value stack
with `sp` pointing at the next free slot, globals, frame stack.  The
stack and globals slots start as Go `nil`. -/
structure VmSt where
  store : St
  constants : List ObjRef
  stack : Nat → Option ObjRef
  sp : Nat
  globals : Nat → Option ObjRef
  frames : Nat → VmFrame
  framesIndex : Nat

/-- Outcome of a VM step or run. -/
inductive Step where
  | cont (vm : VmSt)
  | err (msg : String)
  | panic
  | host

/-- Final outcome of `VM.Run`. -/
inductive VmRes where
  | ok (vm : VmSt)
  | err (msg : String)
  | panic
  | host
  | fuel

/-- `currentFrame`. -/
def currentFrame (vm : VmSt) : VmFrame := vm.frames (vm.framesIndex - 1)

/-- Overwrite the current frame's `ip`. -/
def withIp (vm : VmSt) (ip : Int) : VmSt :=
  let i := vm.framesIndex - 1
  { vm with frames := fun n => if n == i then { vm.frames i with ip := ip } else vm.frames n }

/-- Instructions of the closure running in a frame. -/
def frameInstructions (vm : VmSt) (fr : VmFrame) : List Nat :=
  match vm.store.read fr.clA with
  | .closure fnA _ =>
    match vm.store.read fnA with
    | .compiledFn ins _ _ => ins
    | _ => []
  | _ => []

/-- `push`: bounds-checked against `StackeSize`. -/
def vmPush (vm : VmSt) (o : Option ObjRef) : Except String VmSt :=
  if vm.sp ≥ StackeSize then .error "stack overflow"
  else .ok { vm with
    stack := fun n => if n == vm.sp then o else vm.stack n
    sp := vm.sp + 1 }

/-- `pop`: reading `stack[sp-1]` with `sp = 0` is an index panic.  The
popped slot is NOT cleared (this is what `LastPoppedStackElem` reads). -/
def vmPop (vm : VmSt) : Option (Option ObjRef × VmSt) :=
  if vm.sp == 0 then none
  else some (vm.stack (vm.sp - 1), { vm with sp := vm.sp - 1 })

/-- `LastPoppedStackElem`: the slot just above the top of the stack. -/
def LastPoppedStackElem (vm : VmSt) : Option ObjRef := vm.stack vm.sp

/-- `pushFrame` (the frame array has `MaxFrames` slots). -/
def pushFrame (vm : VmSt) (f : VmFrame) : Option VmSt :=
  if vm.framesIndex ≥ MaxFrames then none
  else some { vm with
    frames := fun n => if n == vm.framesIndex then f else vm.frames n
    framesIndex := vm.framesIndex + 1 }

/-- `popFrame`. -/
def popFrame (vm : VmSt) : Option (VmFrame × VmSt) :=
  if vm.framesIndex == 0 then none
  else some (vm.frames (vm.framesIndex - 1), { vm with framesIndex := vm.framesIndex - 1 })

/-- Allocate in the VM's object store. -/
def vmAlloc (vm : VmSt) (p : Payload) : ObjRef × VmSt :=
  let (r, s) := vm.store.alloc p
  (r, { vm with store := s })

/-- Push a freshly allocated object. -/
def vmAllocPush (vm : VmSt) (p : Payload) : Step :=
  let (r, vm1) := vmAlloc vm p
  match vmPush vm1 (some r) with
  | .ok vm2 => .cont vm2
  | .error e => .err e

/-- `executeIntegerComparison`. -/
def executeIntegerComparison (vm : VmSt) (op : Nat) (lv rv : Int) : Step :=
  if op == OpEqual then
    match vmPush vm (some (nativeBoolToBooleanObject (lv == rv))) with
    | .ok vm1 => .cont vm1 | .error e => .err e
  else if op == OpNotEqual then
    match vmPush vm (some (nativeBoolToBooleanObject (lv != rv))) with
    | .ok vm1 => .cont vm1 | .error e => .err e
  else if op == OpGreaterThan then
    match vmPush vm (some (nativeBoolToBooleanObject (lv > rv))) with
    | .ok vm1 => .cont vm1 | .error e => .err e
  else .err ("unknown integer operator: " ++ toString op)

/-- `executeComparison`: value comparison only for INTEGER/INTEGER; all
other pairs fall to reference (pointer) comparison for Equal/NotEqual and
to an error for GreaterThan.  There is NO float case. -/
def executeComparison (vm : VmSt) (op : Nat) : Step :=
  match vmPop vm with
  | none => .panic
  | some (right, vm1) =>
    match vmPop vm1 with
    | none => .panic
    | some (left, vm2) =>
      match left, right with
      | none, _ => .panic
      | _, none => .panic
      | some l, some r =>
        let lt := typeOf vm2.store l
        let rt := typeOf vm2.store r
        if lt == INTEGER_OBJ && rt == INTEGER_OBJ then
          match vm2.store.read (match l with | .heap a => a | _ => 0),
                vm2.store.read (match r with | .heap a => a | _ => 0) with
          | .int lv, .int rv => executeIntegerComparison vm2 op lv rv
          | _, _ => .panic
        else if op == OpEqual then
          match vmPush vm2 (some (nativeBoolToBooleanObject (r = l))) with
          | .ok vm3 => .cont vm3 | .error e => .err e
        else if op == OpNotEqual then
          match vmPush vm2 (some (nativeBoolToBooleanObject (r ≠ l))) with
          | .ok vm3 => .cont vm3 | .error e => .err e
        else .err ("unsupported types for comparison: " ++ lt ++ " " ++ rt)

/-- `executeBinaryIntegerOperation`. -/
def executeBinaryIntegerOperation (vm : VmSt) (op : Nat) (lv rv : Int) : Step :=
  if op == OpAdd then vmAllocPush vm (.int (wrap64 (lv + rv)))
  else if op == OpSub then vmAllocPush vm (.int (wrap64 (lv - rv)))
  else if op == OpMul then vmAllocPush vm (.int (wrap64 (lv * rv)))
  else if op == OpDiv then
    if rv = 0 then .panic else vmAllocPush vm (.int (wrap64 (Int.tdiv lv rv)))
  else .err ("unknown integer operator: " ++ toString op)

/-- `executeBinaryFloatOperation` (division by zero is host IEEE
behaviour). -/
def executeBinaryFloatOperation (vm : VmSt) (op : Nat) (lv rv : F64) : Step :=
  if op == OpAdd then vmAllocPush vm (.float (lv + rv))
  else if op == OpSub then vmAllocPush vm (.float (lv - rv))
  else if op == OpMul then vmAllocPush vm (.float (lv * rv))
  else if op == OpDiv then
    if rv = 0 then .host else vmAllocPush vm (.float (lv / rv))
  else .err ("unknown integer operator: " ++ toString op)

/-- `executeBinaryStringOperation`. -/
def executeBinaryStringOperation (vm : VmSt) (op : Nat) (lv rv : String) : Step :=
  if !(op == OpAdd) then .err ("unknown string operator: " ++ toString op)
  else vmAllocPush vm (.str (lv ++ rv))

/-- Go's `%+v` rendering of an `[]int64` shape. -/
def fmtShape (shape : List Int) : String :=
  "[" ++ String.intercalate " " (shape.map toString) ++ "]"

/-- Outcome of an element-wise tensor pass: the data, an index panic
(`right` shorter than `left`), or host IEEE behaviour (division by
zero). -/
inductive TensorCalc where
  | okv (dat : List F64)
  | panicv
  | hostv

/-- Element-wise loop over the LEFT operand's indices (`right` is indexed
without a bounds check). -/
def tensorElementwise (f : F64 → F64 → F64) (isDiv : Bool) :
    List F64 → List F64 → TensorCalc
  | [], _ => .okv []
  | _ :: _, [] => .panicv
  | a :: as_, b :: bs =>
    if isDiv && b == 0 then .hostv
    else
      match tensorElementwise f isDiv as_ bs with
      | .okv rest => .okv (f a b :: rest)
      | other => other

/-- `executeBinaryTensorOperation`: only `Add` validates shapes; the
result carries the LEFT operand's shape. -/
def executeBinaryTensorOperation (vm : VmSt) (op : Nat)
    (ls : List Int) (ld : List F64) (rs : List Int) (rd : List F64) : Step :=
  if op == OpAdd then
    if !(ls = rs) then .err ("shapes are not equal " ++ fmtShape ls ++ " " ++ fmtShape rs)
    else
      match tensorElementwise (fun a b => a + b) false ld rd with
      | .okv dat => vmAllocPush vm (.tensor ls dat)
      | .panicv => .panic
      | .hostv => .host
  else if op == OpSub then
    match tensorElementwise (fun a b => a - b) false ld rd with
    | .okv dat => vmAllocPush vm (.tensor ls dat)
    | .panicv => .panic
    | .hostv => .host
  else if op == OpMul then
    match tensorElementwise (fun a b => a * b) false ld rd with
    | .okv dat => vmAllocPush vm (.tensor ls dat)
    | .panicv => .panic
    | .hostv => .host
  else if op == OpDiv then
    match tensorElementwise (fun a b => a / b) true ld rd with
    | .okv dat => vmAllocPush vm (.tensor ls dat)
    | .panicv => .panic
    | .hostv => .host
  else .err ("unknown integer operator: " ++ toString op)

/-- `executeBinaryOperation` dispatch. -/
def executeBinaryOperation (vm : VmSt) (op : Nat) : Step :=
  match vmPop vm with
  | none => .panic
  | some (right, vm1) =>
    match vmPop vm1 with
    | none => .panic
    | some (left, vm2) =>
      match left, right with
      | none, _ => .panic
      | _, none => .panic
      | some l, some r =>
        match l, r with
        | .heap a, .heap b =>
          match vm2.store.read a, vm2.store.read b with
          | .int lv, .int rv => executeBinaryIntegerOperation vm2 op lv rv
          | .float lv, .float rv => executeBinaryFloatOperation vm2 op lv rv
          | .tensor ls ld, .tensor rs rd =>
            executeBinaryTensorOperation vm2 op ls ld rs rd
          | .str lv, .str rv => executeBinaryStringOperation vm2 op lv rv
          | _, _ =>
            .err ("unsupported types for binary operation: "
              ++ typeOf vm2.store l ++ " " ++ typeOf vm2.store r)
        | _, _ =>
          .err ("unsupported types for binary operation: "
            ++ typeOf vm2.store l ++ " " ++ typeOf vm2.store r)

/-- `executeBangOperator`: a `switch` on the singletons; a nil operand
falls to `default` and pushes `False`. -/
def executeBangOperator (vm : VmSt) : Step :=
  match vmPop vm with
  | none => .panic
  | some (operand, vm1) =>
    let res :=
      match operand with
      | some .boolTrue => FALSE
      | some .boolFalse => TRUE
      | some .nullRef => TRUE
      | _ => FALSE
    match vmPush vm1 (some res) with
    | .ok vm2 => .cont vm2 | .error e => .err e

/-- `executeMinusOperator` (`operand.Type()` panics on nil). -/
def executeMinusOperator (vm : VmSt) : Step :=
  match vmPop vm with
  | none => .panic
  | some (operand, vm1) =>
    match operand with
    | none => .panic
    | some r =>
      match r with
      | .heap a =>
        match vm1.store.read a with
        | .int v => vmAllocPush vm1 (.int (wrap64 (-v)))
        | .float v => vmAllocPush vm1 (.float (-v))
        | _ => .err ("unsupported type for negation: " ++ typeOf vm1.store r)
      | _ => .err ("unsupported type for negation: " ++ typeOf vm1.store r)

/-- `executeArrayIndex`: out-of-range pushes `Null`. -/
def executeArrayIndex (vm : VmSt) (array index : ObjRef) : Step :=
  match array with
  | .heap a =>
    match vm.store.read a with
    | .arr elems =>
      match index with
      | .heap b =>
        match vm.store.read b with
        | .int idx =>
          let push1 := fun (o : Option ObjRef) =>
            match vmPush vm o with
            | .ok vm1 => Step.cont vm1 | .error e => Step.err e
          if idx < 0 || idx > (elems.length : Int) - 1 then push1 (some NULL)
          else push1 ((elems.get? idx.toNat).getD none)
        | _ => .panic
      | _ => .panic
    | _ => .panic
  | _ => .panic

/-- `executeHashIndex` (a nil index panics formatting the error; a
non-hashable one is a VM runtime error). -/
def executeHashIndex (vm : VmSt) (hash : ObjRef) (index : Option ObjRef) : Step :=
  match hash with
  | .heap a =>
    match vm.store.read a with
    | .hashv pairs =>
      match index with
      | none => .panic
      | some iv =>
        match hashKeyOf vm.store iv with
        | none => .err ("unusable as hash key: " ++ typeOf vm.store iv)
        | some hk =>
          let push1 := fun (o : Option ObjRef) =>
            match vmPush vm o with
            | .ok vm1 => Step.cont vm1 | .error e => Step.err e
          match pairs.find? (fun p => p.1 = hk) with
          | none => push1 (some NULL)
          | some p => push1 p.2.2
    | _ => .panic
  | _ => .panic

/-- `executeIndexExpression`. -/
def executeIndexExpression (vm : VmSt) (left index : Option ObjRef) : Step :=
  match left with
  | none => .panic
  | some lv =>
    if typeOf vm.store lv == ARRAY_OBJ then
      match index with
      | none => .panic
      | some iv =>
        if typeOf vm.store iv == INTEGER_OBJ then executeArrayIndex vm lv iv
        else .err ("index operator not supported: " ++ typeOf vm.store lv)
    else if typeOf vm.store lv == HASH_OBJ then executeHashIndex vm lv index
    else .err ("index operator not supported: " ++ typeOf vm.store lv)

/-- `buildArray` over `stack[startIndex:endIndex]`. -/
def buildArrayElems (vm : VmSt) (startIndex endIndex : Nat) : List (Option ObjRef) :=
  (List.range (endIndex - startIndex)).map (fun i => vm.stack (startIndex + i))

/-- `buildHash` over consecutive key/value stack slots. -/
def buildHashPairs (vm : VmSt) :
    List (Option ObjRef) → List (HashKey × ObjRef × Option ObjRef) →
    Except (Option String) (List (HashKey × ObjRef × Option ObjRef))
  | [], pairs => .ok pairs
  | key :: value :: rest, pairs =>
    match key with
    | none => .error none
    | some k =>
      match hashKeyOf vm.store k with
      | none => .error (some ("unusable as hash key: " ++ typeOf vm.store k))
      | some hk => buildHashPairs vm rest (upsertPair pairs hk (k, value))
  | _ :: [], pairs => .ok pairs

/-- `callClosure`: the arity check, then a fresh frame with
`bp = sp - numArgs` and `sp = bp + NumLocals`. -/
def callClosure (vm : VmSt) (clA : Nat) (numArgs : Nat) : Step :=
  match vm.store.read clA with
  | .closure fnA _ =>
    match vm.store.read fnA with
    | .compiledFn _ numLocals numParameters =>
      if !(numArgs == numParameters) then
        .err ("wrong number of arguments: want=" ++ toString numParameters
          ++ ", got=" ++ toString numArgs)
      else
        let frame : VmFrame := { clA := clA, ip := -1, basePointer := vm.sp - numArgs }
        match pushFrame vm frame with
        | none => .panic
        | some vm1 => .cont { vm1 with sp := frame.basePointer + numLocals }
    | _ => .panic
  | _ => .panic

/-- `callBuiltin`: the shared registry function is applied to the top
`numArgs` stack slots; the callee and arguments are dropped and the
result (or `Null` for a Go nil) is pushed. -/
def callBuiltin (vm : VmSt) (name : String) (numArgs : Nat) : Step :=
  let args := (List.range numArgs).map (fun i => vm.stack (vm.sp - numArgs + i))
  match callBuiltinFn vm.store name args with
  | (.ok result, store1) =>
    let vm1 := { vm with store := store1, sp := vm.sp - numArgs - 1 }
    let pushed :=
      match result with
      | some v => vmPush vm1 (some v)
      | none => vmPush vm1 (some NULL)
    match pushed with
    | .ok vm2 => .cont vm2
    | .error e => .err e
  | (.panic, _) => .panic
  | (.host, store1) =>
    let _ := store1
    .host
  | (.fuel, _) => .host

/-- `executeCall`: dispatch on the callee under the arguments (a nil or
non-callable callee is the `calling non-function` error). -/
def executeCall (vm : VmSt) (numArgs : Nat) : Step :=
  if vm.sp < 1 + numArgs then .panic
  else
    match vm.stack (vm.sp - 1 - numArgs) with
    | some (.heap a) =>
      match vm.store.read a with
      | .closure _ _ => callClosure vm a numArgs
      | .builtin name => callBuiltin vm name numArgs
      | _ => .err "calling non-function and non-built-in"
    | _ => .err "calling non-function and non-built-in"

/-- `pushClosure`: the constant must be a `CompiledFunction`; the free
values are read from the top of the stack.  NOTE: this VM does NOT
decrement `sp` past the captured values before the push. -/
def pushClosure (vm : VmSt) (constIndex numFree : Nat) : Step :=
  match vm.constants.get? constIndex with
  | none => .panic
  | some c =>
    match c with
    | .heap a =>
      match vm.store.read a with
      | .compiledFn _ _ _ =>
        if vm.sp < numFree then .panic
        else
          let free := (List.range numFree).map (fun i => vm.stack (vm.sp - numFree + i))
          vmAllocPush vm (.closure a free)
      | _ => .err "not a function: <constant>"
    | _ => .err "not a function: <constant>"

/-- `createTensor` (part_009): shape and data must be arrays of integers
and of floats-or-integers respectively. -/
def createTensor (vm : VmSt) (shape dat : Option ObjRef) :
    Except String (List Int × List F64) := do
  let shapeElems ←
    match shape with
    | some (.heap a) =>
      match vm.store.read a with
      | .arr es => pure es
      | _ => throw "dimensions argument must be an array"
    | _ => throw "dimensions argument must be an array"
  let datElems ←
    match dat with
    | some (.heap a) =>
      match vm.store.read a with
      | .arr es => pure es
      | _ => throw "data argument must be an array"
    | _ => throw "data argument must be an array"
  let dataVals ← datElems.foldlM (fun (acc : List F64) e =>
    match e with
    | some (.heap b) =>
      match vm.store.read b with
      | .int v => pure (acc ++ [(v : F64)])
      | .float v => pure (acc ++ [v])
      | _ => throw "data elements must be of type float"
    | _ => throw "data elements must be of type float") []
  let shapeVals ← shapeElems.foldlM (fun (acc : List Int) e =>
    match e with
    | some (.heap b) =>
      match vm.store.read b with
      | .int v => pure (acc ++ [v])
      | _ => throw "shape elements must be of type integer"
    | _ => throw "shape elements must be of type integer") []
  pure (shapeVals, dataVals)

/-- One pass of the `VM.Run` loop body (the opcode has already had the
frame's `ip` advanced onto it); mirrors the source `switch` including the
per-opcode `ip` adjustments past operand bytes. -/
def vmStep (vm : VmSt) (ins : List Nat) (ip : Nat) (op : Nat) : Step :=
  if op == OpConstant then
    let constIndex := readU16 ins (ip + 1)
    let vm := withIp vm (ip + 2 : Nat)
    match vm.constants.get? constIndex with
    | none => .panic
    | some c =>
      match vmPush vm (some c) with
      | .ok vm1 => .cont vm1 | .error e => .err e
  else if op == OpEqual || op == OpNotEqual || op == OpGreaterThan then
    executeComparison vm op
  else if op == OpAdd || op == OpSub || op == OpMul || op == OpDiv then
    executeBinaryOperation vm op
  else if op == OpPop then
    match vmPop vm with
    | none => .panic
    | some (_, vm1) => .cont vm1
  else if op == OpTrue then
    match vmPush vm (some TRUE) with
    | .ok vm1 => .cont vm1 | .error e => .err e
  else if op == OpFalse then
    match vmPush vm (some FALSE) with
    | .ok vm1 => .cont vm1 | .error e => .err e
  else if op == OpBang then executeBangOperator vm
  else if op == OpMinus then executeMinusOperator vm
  else if op == OpNull then
    match vmPush vm (some NULL) with
    | .ok vm1 => .cont vm1 | .error e => .err e
  else if op == OpJump then
    let pos := readU16 ins (ip + 1)
    .cont (withIp vm ((pos : Int) - 1))
  else if op == OpJumpNotTruthy then
    let pos := readU16 ins (ip + 1)
    let vm := withIp vm (ip + 2 : Nat)
    match vmPop vm with
    | none => .panic
    | some (condition, vm1) =>
      if !isTruthy condition then .cont (withIp vm1 ((pos : Int) - 1))
      else .cont vm1
  else if op == OpSetGlobal then
    let globalIndex := readU16 ins (ip + 1)
    let vm := withIp vm (ip + 2 : Nat)
    match vmPop vm with
    | none => .panic
    | some (v, vm1) =>
      .cont { vm1 with globals := fun n => if n == globalIndex then v else vm1.globals n }
  else if op == OpGetGlobal then
    let globalIndex := readU16 ins (ip + 1)
    let vm := withIp vm (ip + 2 : Nat)
    match vmPush vm (vm.globals globalIndex) with
    | .ok vm1 => .cont vm1 | .error e => .err e
  else if op == OpArray then
    let numElements := readU16 ins (ip + 1)
    let vm := withIp vm (ip + 2 : Nat)
    if vm.sp < numElements then .panic
    else
      let elems := buildArrayElems vm (vm.sp - numElements) vm.sp
      let (r, vm1) := vmAlloc vm (.arr elems)
      let vm2 := { vm1 with sp := vm1.sp - numElements }
      match vmPush vm2 (some r) with
      | .ok vm3 => .cont vm3 | .error e => .err e
  else if op == OpHash then
    let numElements := readU16 ins (ip + 1)
    let vm := withIp vm (ip + 2 : Nat)
    if vm.sp < numElements then .panic
    else
      let slots := buildArrayElems vm (vm.sp - numElements) vm.sp
      match buildHashPairs vm slots [] with
      | .error none => .panic
      | .error (some msg) => .err msg
      | .ok pairs =>
        let (r, vm1) := vmAlloc vm (.hashv pairs)
        let vm2 := { vm1 with sp := vm1.sp - numElements }
        match vmPush vm2 (some r) with
        | .ok vm3 => .cont vm3 | .error e => .err e
  else if op == OpIndex then
    match vmPop vm with
    | none => .panic
    | some (index, vm1) =>
      match vmPop vm1 with
      | none => .panic
      | some (left, vm2) => executeIndexExpression vm2 left index
  else if op == OpCall then
    let numArgs := readU8 ins (ip + 1)
    let vm := withIp vm (ip + 1 : Nat)
    executeCall vm numArgs
  else if op == OpReturnValue then
    match vmPop vm with
    | none => .panic
    | some (returnValue, vm1) =>
      match popFrame vm1 with
      | none => .panic
      | some (frame, vm2) =>
        if frame.basePointer == 0 then .panic
        else
          let vm3 := { vm2 with sp := frame.basePointer - 1 }
          match vmPush vm3 returnValue with
          | .ok vm4 => .cont vm4 | .error e => .err e
  else if op == OpReturn then
    match popFrame vm with
    | none => .panic
    | some (frame, vm1) =>
      if frame.basePointer == 0 then .panic
      else
        let vm2 := { vm1 with sp := frame.basePointer - 1 }
        match vmPush vm2 (some NULL) with
        | .ok vm3 => .cont vm3 | .error e => .err e
  else if op == OpSetLocal then
    let localIndex := readU8 ins (ip + 1)
    let vm := withIp vm (ip + 1 : Nat)
    let frame := currentFrame vm
    match vmPop vm with
    | none => .panic
    | some (v, vm1) =>
      if frame.basePointer + localIndex ≥ StackeSize then .panic
      else
        .cont { vm1 with stack := fun n =>
          if n == frame.basePointer + localIndex then v else vm1.stack n }
  else if op == OpGetLocal then
    let localIndex := readU8 ins (ip + 1)
    let vm := withIp vm (ip + 1 : Nat)
    let frame := currentFrame vm
    match vmPush vm (vm.stack (frame.basePointer + localIndex)) with
    | .ok vm1 => .cont vm1 | .error e => .err e
  else if op == OpGetBuiltin then
    let builtinIndex := readU8 ins (ip + 1)
    let vm := withIp vm (ip + 1 : Nat)
    if builtinIndex ≥ builtinNames.length then .panic
    else
      match vmPush vm (some (.heap builtinIndex)) with
      | .ok vm1 => .cont vm1 | .error e => .err e
  else if op == OpClosure then
    let constIndex := readU16 ins (ip + 1)
    let numFree := readU8 ins (ip + 3)
    let vm := withIp vm (ip + 3 : Nat)
    pushClosure vm constIndex numFree
  else if op == OpGetFree then
    let freeIndex := readU8 ins (ip + 1)
    let vm := withIp vm (ip + 1 : Nat)
    let frame := currentFrame vm
    match vm.store.read frame.clA with
    | .closure _ free =>
      match free.get? freeIndex with
      | none => .panic
      | some v =>
        match vmPush vm v with
        | .ok vm1 => .cont vm1 | .error e => .err e
    | _ => .panic
  else if op == OpCurrentClosure then
    let frame := currentFrame vm
    match vmPush vm (some (.heap frame.clA)) with
    | .ok vm1 => .cont vm1 | .error e => .err e
  else if op == OpImport then
    .cont (withIp vm (ip + 2 : Nat))
  else if op == OpTensor then
    let vm := withIp vm (ip + 2 : Nat)
    match vmPop vm with
    | none => .panic
    | some (dat, vm1) =>
      match vmPop vm1 with
      | none => .panic
      | some (shape, vm2) =>
        match createTensor vm2 shape dat with
        | .error e => .err e
        | .ok (shapeVals, dataVals) =>
          let (r, vm3) := vmAlloc vm2 (.tensor shapeVals dataVals)
          match vmPush vm3 (some r) with
          | .ok vm4 => .cont vm4
          | .error _ => .cont vm3
  else .cont vm

/-- `VM.Run`: while `ip < len(instructions) - 1`, advance `ip`, decode,
dispatch. -/
def vmRunF : Nat → VmSt → VmRes
  | 0, _ => .fuel
  | fuel + 1, vm =>
    let fr := currentFrame vm
    let ins := frameInstructions vm fr
    if fr.ip < (ins.length : Int) - 1 then
      let vm1 := withIp vm (fr.ip + 1)
      let ip : Nat := (fr.ip + 1).toNat
      let op := ins.getD ip 0
      match vmStep vm1 ins ip op with
      | .cont vm2 => vmRunF fuel vm2
      | .err e => .err e
      | .panic => .panic
      | .host => .host
    else .ok vm

/-! The compiler.  The full compiler (scopes, symbol table, closures) is
not under `src/` — only early partial snapshots, the symbol table's tests
and the VM are.  Modelled from the spec: sections 4.5–4.6 define the
translation of the literal/prefix/infix expression-statement fragment
used by the theorems below: literals to `Constant`/`True`/`False`, each
infix by left then right operand followed by the operator opcode — except
`<`, compiled right then left followed by `GreaterThan` — and a trailing
`Pop` after every expression statement.  Constants are appended in order
of occurrence (each literal allocates a fresh object). -/

structure CompSt where
  instructions : List Nat
  constants : List Payload

/-- `addConstant`. -/
def addConstant (c : CompSt) (p : Payload) : Nat × CompSt :=
  (c.constants.length, { c with constants := c.constants ++ [p] })

/-- `emit`. -/
def emit (c : CompSt) (op : Nat) (operands : List Nat) : CompSt :=
  { c with instructions := c.instructions ++ Make op operands }

/-- Modelled from the spec: compile an expression of the fragment
(`none` = outside the fragment). -/
def compileExpr : Expr → CompSt → Option CompSt
  | .intLit v, c =>
    let (i, c1) := addConstant c (.int v)
    some (emit c1 OpConstant [i])
  | .floatLit v, c =>
    let (i, c1) := addConstant c (.float v)
    some (emit c1 OpConstant [i])
  | .strLit v, c =>
    let (i, c1) := addConstant c (.str v)
    some (emit c1 OpConstant [i])
  | .boolLit b, c => some (emit c (if b then OpTrue else OpFalse) [])
  | .prefixE op r, c =>
    match compileExpr r c with
    | none => none
    | some c1 =>
      if op == "!" then some (emit c1 OpBang [])
      else if op == "-" then some (emit c1 OpMinus [])
      else none
  | .infixE op l r, c =>
    if op == "<" then
      match compileExpr r c with
      | none => none
      | some c1 =>
        match compileExpr l c1 with
        | none => none
        | some c2 => some (emit c2 OpGreaterThan [])
    else
      match compileExpr l c with
      | none => none
      | some c1 =>
        match compileExpr r c1 with
        | none => none
        | some c2 =>
          if op == "+" then some (emit c2 OpAdd [])
          else if op == "-" then some (emit c2 OpSub [])
          else if op == "*" then some (emit c2 OpMul [])
          else if op == "/" then some (emit c2 OpDiv [])
          else if op == ">" then some (emit c2 OpGreaterThan [])
          else if op == "==" then some (emit c2 OpEqual [])
          else if op == "!=" then some (emit c2 OpNotEqual [])
          else none
  | _, _ => none

/-- Modelled from the spec: every expression statement compiles its
expression and emits a trailing `Pop`. -/
def compileStmt : Stmt → CompSt → Option CompSt
  | .exprS e, c =>
    match compileExpr e c with
    | none => none
    | some c1 => some (emit c1 OpPop [])
  | _, _ => none

/-- Modelled from the spec: compile a program of the fragment. -/
def compileProgram : List Stmt → CompSt → Option CompSt
  | [], c => some c
  | st :: rest, c =>
    match compileStmt st c with
    | none => none
    | some c1 => compileProgram rest c1

/-- Compile from an empty pool (`compiler.New` + `Compile` + `Bytecode`). -/
def compile (prog : List Stmt) : Option CompSt :=
  compileProgram prog { instructions := [], constants := [] }

/-- `vm.New`: the object store starts with the shared builtin registry,
then the constant pool's allocations, then the synthetic main
CompiledFunction and main Closure; the stack and globals start nil. -/
def vmNew (bytecode : CompSt) : VmSt :=
  let store0 : St := { heapv := builtinNames.map .builtin, envs := [] }
  let (constRefs, store1) :=
    bytecode.constants.foldl
      (fun (acc : List ObjRef × St) p =>
        let (r, s1) := acc.2.alloc p
        (acc.1 ++ [r], s1))
      ([], store0)
  let (fnRef, store2) := store1.alloc (.compiledFn bytecode.instructions 0 0)
  let fnA := match fnRef with | .heap a => a | _ => 0
  let (clRef, store3) := store2.alloc (.closure fnA [])
  let clA := match clRef with | .heap a => a | _ => 0
  { store := store3
    constants := constRefs
    stack := fun _ => none
    sp := 0
    globals := fun _ => none
    frames := fun n =>
      if n == 0 then { clA := clA, ip := -1, basePointer := 0 }
      else { clA := clA, ip := -1, basePointer := 0 }
    framesIndex := 1 }

/-- Compile (spec-modelled) and run the source VM on a program. -/
def runCompiledVM (fuel : Nat) (prog : List Stmt) : Option VmRes :=
  (compile prog).map (fun b => vmRunF fuel (vmNew b))

/-! Observation helpers used by the theorems. -/

/-- The returned object of a normal evaluator outcome. -/
def resultVal : Res × St → Option (Option ObjRef)
  | (.ok v, _) => some v
  | _ => none

/-- The integer value of an evaluator outcome. -/
def resultInt : Res × St → Option Int
  | (.ok (some (.heap a)), s) =>
    match s.read a with
    | .int v => some v
    | _ => none
  | _ => none

/-- The string value of an evaluator outcome. -/
def resultStr : Res × St → Option String
  | (.ok (some (.heap a)), s) =>
    match s.read a with
    | .str v => some v
    | _ => none
  | _ => none

/-- The error message of an evaluator outcome that is an `object.Error`. -/
def resultErrMsg : Res × St → Option String
  | (.ok (some (.heap a)), s) =>
    match s.read a with
    | .err m => some m
    | _ => none
  | _ => none

/-- The parsed statement list of a parser outcome. -/
def parsedProgram : PRes (List Stmt) → Option (List Stmt)
  | .ret v _ => some v
  | .out => none

/-- The accumulated error list of a parser outcome. -/
def parserErrors : PRes (List Stmt) → Option (List String)
  | .ret _ p => some p.errors
  | .out => none

/-- The `LastPoppedStackElem` of a completed VM run. -/
def vmLastPopped : Option VmRes → Option (Option ObjRef)
  | some (.ok vm) => some (LastPoppedStackElem vm)
  | _ => none

/-- The runtime-error message of a VM run. -/
def vmErrMsg : Option VmRes → Option String
  | some (.err m) => some m
  | _ => none

/-! Claim theorems. -/

/-- The AST of `1.0 == 1.0;`. -/
def c1Program : List Stmt := [.exprS (.infixE "==" (.floatLit 1) (.floatLit 1))]

/-- The AST of `2.0 > 1.0;`. -/
def c1ProgramGt : List Stmt := [.exprS (.infixE ">" (.floatLit 2) (.floatLit 1))]

/-- Claim C1: the spec demands that for every parser-accepted source with a
primitive final value, the tree-walking evaluator and compile-plus-VM
agree, the VM value read via `LastPoppedStackElem`.  The code violates
this: `executeComparison` has no float case, so on `1.0 == 1.0;` (accepted
by the parser with no errors, as the first two conjuncts show) the
evaluator compares the float VALUES and yields the Boolean `true`, while
the VM pointer-compares the two DISTINCT `Float` constant allocations and
yields the Boolean `false`; on `2.0 > 1.0;` the evaluator yields `true`
while the VM halts with the runtime error
`unsupported types for comparison: FLOAT FLOAT`.  Compiler spec-modelled;
VM and evaluator from source. -/
theorem c1_float_comparison_divergence :
    (∃ q : F64, parsedProgram (parseSource 50 "1.0 == 1.0;") =
        some [.exprS (.infixE "==" (.floatLit q) (.floatLit q))] ∧ q = 1) ∧
    parserErrors (parseSource 50 "1.0 == 1.0;") = some [] ∧
    resultVal (runEvaluator 10 c1Program) = some (some TRUE) ∧
    vmLastPopped (runCompiledVM 50 c1Program) = some (some FALSE) ∧
    TRUE ≠ FALSE ∧
    resultVal (runEvaluator 10 c1ProgramGt) = some (some TRUE) ∧
    vmErrMsg (runCompiledVM 50 c1ProgramGt) =
      some "unsupported types for comparison: FLOAT FLOAT" := by
  refine ⟨⟨_, rfl, ?_⟩, rfl, rfl, rfl, by decide, rfl, rfl⟩
  norm_num [show (Char.ofNat ('1'.val.toNat % 256)).toNat = 49 from by decide,
    show (Char.ofNat ('0'.val.toNat % 256)).toNat = 48 from by decide]

/-- The function literal `fn(x){ x }` bound to `f`. -/
def c2Fn : Expr := .fnLit ["x"] [.exprS (.ident "x")] "f"

/-- `let f = fn(x){ x }; f(1, 2);` — one parameter, two arguments. -/
def c2Program : List Stmt :=
  [.letS "f" c2Fn, .exprS (.callE (.ident "f") [.intLit 1, .intLit 2])]

/-- `let f = fn(x){ x }; f();` — one parameter, no arguments. -/
def c2ProgramMissing : List Stmt :=
  [.letS "f" c2Fn, .exprS (.callE (.ident "f") [])]

/-- Claim C2 counterexample: the claim says a call with j ≠ k arguments
errors in BOTH backends; in the tree-walking evaluator `f(1, 2)` with
`f = fn(x){ x }` instead silently ignores the extra argument and yields
the Integer 1 — no error object is produced. -/
theorem c2_counterexample :
    resultInt (runEvaluator 20 c2Program) = some 1 ∧
    resultErrMsg (runEvaluator 20 c2Program) = none := ⟨rfl, rfl⟩

/-- Claim C2 amended: only the VM checks arity — `callClosure` fails with
exactly `wrong number of arguments: want=W, got=G` whenever the argument
count differs from the closure's parameter count; the evaluator performs
no check: extra arguments are silently ignored (`f(1,2)` yields 1) and a
missing argument crashes with an index-out-of-range panic (`f()`). -/
theorem c2_amended :
    (∀ (vm : VmSt) (clA fnA : Nat) (ins : List Nat)
        (numLocals numParameters numArgs : Nat) (free : List (Option ObjRef)),
      vm.store.read clA = .closure fnA free →
      vm.store.read fnA = .compiledFn ins numLocals numParameters →
      numArgs ≠ numParameters →
      callClosure vm clA numArgs =
        .err ("wrong number of arguments: want=" ++ toString numParameters
          ++ ", got=" ++ toString numArgs)) ∧
    resultInt (runEvaluator 20 c2Program) = some 1 ∧
    (runEvaluator 20 c2ProgramMissing).1 = Res.panic := by
  refine ⟨?_, rfl, rfl⟩
  intro vm clA fnA ins nl np na free h1 h2 hne
  have hb : (na == np) = false := by
    simpa using hne
  simp [callClosure, h1, h2, hb]

/-- Witness for `c2_amended`: the VM arity check at a concrete closure
(the synthetic main closure of an empty program, 0 parameters) called
with 3 arguments. -/
theorem c2_amended_witness :
    callClosure (vmNew { instructions := [], constants := [] }) 11 3 =
      .err "wrong number of arguments: want=0, got=3" :=
  c2_amended.1 (vmNew { instructions := [], constants := [] }) 11 10 [] 0 0 3 []
    rfl rfl (by decide)

/-- The tensor literal `@[3],[1.0,2.0,3.0]`. -/
def c3TensorExpr : Expr :=
  .tensorLit (.arrLit [.intLit 3]) (.arrLit [.floatLit 1, .floatLit 2, .floatLit 3])

/-- `let a = @[3],[1.0,2.0,3.0]; let b = @[3],[1.0,2.0,3.0]; a + b;`. -/
def c3Program : List Stmt :=
  [.letS "a" c3TensorExpr, .letS "b" c3TensorExpr,
   .exprS (.infixE "+" (.ident "a") (.ident "b"))]

/-- Claim C3: the spec (and the repository's own `TestTensorLiteral` and
`TestTensorMath`) expect the evaluator to build tensors and add them
element-wise; but `Eval` has NO `TensorLiteral` case (it falls through to
`return nil`, first conjunct) and `evalInfixExpression` has no tensor
branch, so on the claimed program the two `let`s bind Go `nil` and `a + b`
panics calling `.Type()` on a nil interface (second conjunct) instead of
producing the tensor with shape [3] and data [2.0, 4.0, 6.0]. -/
theorem c3_tensor_unsupported_in_evaluator :
    resultVal (evalExpr 10 c3TensorExpr 0 initSt) = some none ∧
    (runEvaluator 40 c3Program).1 = Res.panic ∧
    (∃ q1 q2 q3 q4 q5 q6 : F64,
      parsedProgram (parseSource 300
          "let a = @[3],[1.0,2.0,3.0]; let b = @[3],[1.0,2.0,3.0]; a + b;")
        = some
          [.letS "a" (.tensorLit (.arrLit [.intLit 3])
              (.arrLit [.floatLit q1, .floatLit q2, .floatLit q3])),
           .letS "b" (.tensorLit (.arrLit [.intLit 3])
              (.arrLit [.floatLit q4, .floatLit q5, .floatLit q6])),
           .exprS (.infixE "+" (.ident "a") (.ident "b"))] ∧
      q1 = 1 ∧ q2 = 2 ∧ q3 = 3 ∧ q4 = 1 ∧ q5 = 2 ∧ q6 = 3) := by
  refine ⟨rfl, rfl, _, _, _, _, _, _, rfl, ?_, ?_, ?_, ?_, ?_, ?_⟩ <;>
    norm_num [show (Char.ofNat ('1'.val.toNat % 256)).toNat = 49 from by decide,
      show (Char.ofNat ('2'.val.toNat % 256)).toNat = 50 from by decide,
      show (Char.ofNat ('3'.val.toNat % 256)).toNat = 51 from by decide,
      show (Char.ofNat ('0'.val.toNat % 256)).toNat = 48 from by decide]

/-- Claim C4 counterexample: in the tree-walking evaluator the builtin
`pop` does NOT resolve — the evaluator's builtin map only contains len,
first, last, rest, push and puts — so evaluating the identifier `pop`
yields exactly the error the claim rules out. -/
theorem c4_counterexample :
    resultErrMsg (runEvaluator 10 [.exprS (.ident "pop")]) =
      some "identifier not found: pop" := rfl

/-- Run one `OpGetBuiltin` instruction and observe the pushed object. -/
def c4GetBuiltin (idx : Nat) : Option VmRes :=
  some (vmRunF 10 (vmNew { instructions := Make OpGetBuiltin [idx], constants := [] }))

/-- The payload of the object a VM run leaves on top of the stack. -/
def vmTopPayloadName : Option VmRes → Option String
  | some (.ok vm) =>
    match vm.stack (vm.sp - 1) with
    | some (.heap a) =>
      match vm.store.read a with
      | .builtin name => some name
      | _ => none
    | _ => none
  | _ => none

/-- Claim C4 amended: in the VM backend all ten registry builtins resolve
(`OpGetBuiltin i` pushes the registry's `Builtins[i]` object, shown for
each index), but in the evaluator only len, first, last, rest, push and
puts resolve to builtin objects; pop, join, random and exp fall through to
`identifier not found: <name>`. -/
theorem c4_amended :
    evalIdentifier initSt 0 "len" = (.ok (some (.heap 0)), initSt) ∧
    evalIdentifier initSt 0 "puts" = (.ok (some (.heap 1)), initSt) ∧
    evalIdentifier initSt 0 "first" = (.ok (some (.heap 2)), initSt) ∧
    evalIdentifier initSt 0 "last" = (.ok (some (.heap 3)), initSt) ∧
    evalIdentifier initSt 0 "rest" = (.ok (some (.heap 4)), initSt) ∧
    evalIdentifier initSt 0 "push" = (.ok (some (.heap 5)), initSt) ∧
    initSt.read 0 = .builtin "len" ∧
    initSt.read 5 = .builtin "push" ∧
    resultErrMsg (runEvaluator 10 [.exprS (.ident "pop")]) =
      some "identifier not found: pop" ∧
    resultErrMsg (runEvaluator 10 [.exprS (.ident "join")]) =
      some "identifier not found: join" ∧
    resultErrMsg (runEvaluator 10 [.exprS (.ident "random")]) =
      some "identifier not found: random" ∧
    resultErrMsg (runEvaluator 10 [.exprS (.ident "exp")]) =
      some "identifier not found: exp" ∧
    vmTopPayloadName (c4GetBuiltin 0) = some "len" ∧
    vmTopPayloadName (c4GetBuiltin 1) = some "puts" ∧
    vmTopPayloadName (c4GetBuiltin 2) = some "first" ∧
    vmTopPayloadName (c4GetBuiltin 3) = some "last" ∧
    vmTopPayloadName (c4GetBuiltin 4) = some "rest" ∧
    vmTopPayloadName (c4GetBuiltin 5) = some "push" ∧
    vmTopPayloadName (c4GetBuiltin 6) = some "pop" ∧
    vmTopPayloadName (c4GetBuiltin 7) = some "join" ∧
    vmTopPayloadName (c4GetBuiltin 8) = some "random" ∧
    vmTopPayloadName (c4GetBuiltin 9) = some "exp" := by
  exact ⟨rfl, rfl, rfl, rfl, rfl, rfl, rfl, rfl, rfl, rfl, rfl, rfl, rfl, rfl,
    rfl, rfl, rfl, rfl, rfl, rfl, rfl, rfl⟩

/-- Claim C5 counterexample: the claim says operands of different type
tags make EVERY infix operator produce `type mismatch: <l> <op> <r>`; but
`==` is dispatched before the type checks, so `1 == true;` evaluates to
the Boolean `false` — no error at all. -/
theorem c5_counterexample :
    resultVal (runEvaluator 10 [.exprS (.infixE "==" (.intLit 1) (.boolLit true))]) =
      some (some FALSE) ∧
    resultErrMsg (runEvaluator 10 [.exprS (.infixE "==" (.intLit 1) (.boolLit true))]) =
      none := ⟨rfl, rfl⟩

/-- The AST of `"Hello" + " " + "World!"` (left associative). -/
def c5HelloProgram : List Stmt :=
  [.exprS (.infixE "+" (.infixE "+" (.strLit "Hello") (.strLit " ")) (.strLit "World!"))]

/-- Claim C5 amended: `==`/`!=` are dispatched before the type checks and
compare by reference, returning a boolean for every operand pair that is
not integer/integer and not float/float (conjuncts 4 and 5) — so neither
two strings nor mixed tags error under them.  Otherwise the claim stands:
`+` on two strings concatenates (conjunct 1); every other operator among
`- * / < >` on two strings is `unknown operator: STRING <op> STRING`
(conjunct 2); operands of different tags under `+ - * / < >` are
`type mismatch: <l> <op> <r>` (conjunct 3); and
`"Hello" + " " + "World!"` evaluates to the string `Hello World!`
(conjuncts 6 and 7, via the lexer and parser). -/
theorem c5_amended :
    (∀ (s : St) (a b : Nat) (sa sb : String),
      s.read a = .str sa → s.read b = .str sb →
      resultStr (evalInfixExpression s "+" (some (.heap a)) (some (.heap b))) =
        some (sa ++ sb)) ∧
    (∀ op ∈ (["-", "*", "/", "<", ">"] : List String),
      ∀ (s : St) (a b : Nat) (sa sb : String),
      s.read a = .str sa → s.read b = .str sb →
      resultErrMsg (evalInfixExpression s op (some (.heap a)) (some (.heap b))) =
        some ("unknown operator: STRING " ++ op ++ " STRING")) ∧
    (∀ op ∈ (["+", "-", "*", "/", "<", ">"] : List String),
      ∀ (s : St) (l r : ObjRef), typeOf s l ≠ typeOf s r →
      resultErrMsg (evalInfixExpression s op (some l) (some r)) =
        some ("type mismatch: " ++ typeOf s l ++ " " ++ op ++ " " ++ typeOf s r)) ∧
    (∀ (s : St) (l r : ObjRef),
      ¬(typeOf s l = INTEGER_OBJ ∧ typeOf s r = INTEGER_OBJ) →
      ¬(typeOf s l = FLOAT_OBJ ∧ typeOf s r = FLOAT_OBJ) →
      evalInfixExpression s "==" (some l) (some r) =
        (.ok (some (nativeBoolToBooleanObject (l = r))), s)) ∧
    (∀ (s : St) (l r : ObjRef),
      ¬(typeOf s l = INTEGER_OBJ ∧ typeOf s r = INTEGER_OBJ) →
      ¬(typeOf s l = FLOAT_OBJ ∧ typeOf s r = FLOAT_OBJ) →
      evalInfixExpression s "!=" (some l) (some r) =
        (.ok (some (nativeBoolToBooleanObject (l ≠ r))), s)) ∧
    resultStr (runEvaluator 20 c5HelloProgram) = some "Hello World!" ∧
    parsedProgram (parseSource 60 "\"Hello\" + \" \" + \"World!\"") =
      some c5HelloProgram := by
  have hErr : ∀ (s : St) (m : String),
      resultErrMsg ((newError s m).map (Res.ok ∘ some) id) = some m := by
    intro s m
    simp [newError, resultErrMsg, St.alloc, St.read, List.get?_eq_getElem?,
      List.getElem?_concat_length]
  have hTail : ∀ (s : St) (op : String) (l r : ObjRef),
      op ≠ "==" → op ≠ "!=" →
      ¬(typeOf s l = INTEGER_OBJ ∧ typeOf s r = INTEGER_OBJ) →
      ¬(typeOf s l = FLOAT_OBJ ∧ typeOf s r = FLOAT_OBJ) →
      evalInfixExpression s op (some l) (some r) = infixTail s op l r := by
    intro s op l r h1 h2 h3 h4
    simp only [evalInfixExpression]
    by_cases hI : typeOf s l = INTEGER_OBJ
    · have hrI : ¬ typeOf s r = INTEGER_OBJ := fun hr => h3 ⟨hI, hr⟩
      simp [hI, hrI]
    · by_cases hF : typeOf s l = FLOAT_OBJ
      · have hrF : ¬ typeOf s r = FLOAT_OBJ := fun hr => h4 ⟨hF, hr⟩
        simp [hI, hF, hrF, show FLOAT_OBJ ≠ INTEGER_OBJ from by decide]
      · simp [hI, hF, h1, h2]
  have hTailMismatch : ∀ (s : St) (op : String) (l r : ObjRef),
      op ≠ "==" → op ≠ "!=" → typeOf s l ≠ typeOf s r →
      infixTail s op l r =
        ((newError s ("type mismatch: " ++ typeOf s l ++ " " ++ op ++ " "
          ++ typeOf s r)).map (Res.ok ∘ some) id) := by
    intro s op l r h1 h2 hne
    simp [infixTail, h1, h2, hne]
  refine ⟨?_, ?_, ?_, ?_, ?_, rfl, rfl⟩
  · intro s a b sa sb ha hb
    have hta : typeOf s (.heap a) = STRING_OBJ := by simp [typeOf, ha]
    have htb : typeOf s (.heap b) = STRING_OBJ := by simp [typeOf, hb]
    rw [hTail s "+" _ _ (by decide) (by decide)
      (fun h => absurd (hta.symm.trans h.1) (by decide))
      (fun h => absurd (hta.symm.trans h.1) (by decide))]
    simp only [infixTail, hta, htb]
    simp only [St.read, List.get?_eq_getElem?] at ha hb
    simp [evalStringInfixExpression, ha, hb, resultStr, St.alloc, St.read,
      List.get?_eq_getElem?, List.getElem?_concat_length]
  · intro op hop s a b sa sb ha hb
    have hta : typeOf s (.heap a) = STRING_OBJ := by simp [typeOf, ha]
    have htb : typeOf s (.heap b) = STRING_OBJ := by simp [typeOf, hb]
    fin_cases hop <;>
    · rw [hTail s _ _ _ (by decide) (by decide)
        (fun h => absurd (hta.symm.trans h.1) (by decide))
        (fun h => absurd (hta.symm.trans h.1) (by decide))]
      simp only [infixTail, hta, htb]
      simp only [St.read, List.get?_eq_getElem?] at ha hb
      simp [evalStringInfixExpression, ha, hb, resultErrMsg, newError, St.alloc,
        St.read, List.get?_eq_getElem?, List.getElem?_concat_length]
      rfl
  · intro op hop s l r hne
    fin_cases hop <;>
    · rw [hTail s _ _ _ (by decide) (by decide)
        (fun h => hne (h.1.trans h.2.symm)) (fun h => hne (h.1.trans h.2.symm)),
        hTailMismatch s _ _ _ (by decide) (by decide) hne]
      exact hErr _ _
  · intro s l r h3 h4
    simp only [evalInfixExpression]
    by_cases hI : typeOf s l = INTEGER_OBJ
    · have hrI : ¬ typeOf s r = INTEGER_OBJ := fun hr => h3 ⟨hI, hr⟩
      simp [hI, hrI, infixTail]
    · by_cases hF : typeOf s l = FLOAT_OBJ
      · have hrF : ¬ typeOf s r = FLOAT_OBJ := fun hr => h4 ⟨hF, hr⟩
        simp [hI, hF, hrF, infixTail, show FLOAT_OBJ ≠ INTEGER_OBJ from by decide]
      · simp [hI, hF]
  · intro s l r h3 h4
    simp only [evalInfixExpression]
    by_cases hI : typeOf s l = INTEGER_OBJ
    · have hrI : ¬ typeOf s r = INTEGER_OBJ := fun hr => h3 ⟨hI, hr⟩
      simp [hI, hrI, infixTail]
    · by_cases hF : typeOf s l = FLOAT_OBJ
      · have hrF : ¬ typeOf s r = FLOAT_OBJ := fun hr => h4 ⟨hF, hr⟩
        simp [hI, hF, hrF, infixTail, show FLOAT_OBJ ≠ INTEGER_OBJ from by decide]
      · simp [hI, hF]

/-- A small concrete store: two strings and an integer. -/
def c5St : St := { heapv := [.str "a", .str "b", .int 1], envs := [] }

/-- Witness for `c5_amended` at concrete operands. -/
theorem c5_amended_witness :
    resultStr (evalInfixExpression c5St "+" (some (.heap 0)) (some (.heap 1))) =
      some "ab" ∧
    resultErrMsg (evalInfixExpression c5St "-" (some (.heap 0)) (some (.heap 1))) =
      some "unknown operator: STRING - STRING" ∧
    resultErrMsg (evalInfixExpression c5St "+" (some (.heap 2)) (some (.heap 0))) =
      some "type mismatch: INTEGER + STRING" ∧
    evalInfixExpression c5St "==" (some (.heap 0)) (some (.heap 1)) =
      (.ok (some FALSE), c5St) ∧
    evalInfixExpression c5St "!=" (some (.heap 0)) (some (.heap 1)) =
      (.ok (some TRUE), c5St) :=
  ⟨c5_amended.1 c5St 0 1 "a" "b" rfl rfl,
   c5_amended.2.1 "-" (by decide) c5St 0 1 "a" "b" rfl rfl,
   c5_amended.2.2.1 "+" (by decide) c5St (.heap 2) (.heap 0) (by decide),
   c5_amended.2.2.2.1 c5St (.heap 0) (.heap 1) (by decide) (by decide),
   c5_amended.2.2.2.2.1 c5St (.heap 0) (.heap 1) (by decide) (by decide)⟩

/-- No semicolon in the remaining token stream (current, peek, pending). -/
def noSemi (p : PState) : Prop :=
  p.curToken.type_ ≠ token.SEMICOLON ∧ p.peekToken.type_ ≠ token.SEMICOLON ∧
    ∀ t ∈ p.toks, t.type_ ≠ token.SEMICOLON

/-- A semicolon somewhere in the remaining token stream. -/
def semiIn (p : PState) : Prop :=
  p.curToken.type_ = token.SEMICOLON ∨ p.peekToken.type_ = token.SEMICOLON ∨
    ∃ t ∈ p.toks, t.type_ = token.SEMICOLON

/-- The let/return trailing loop never terminates when no semicolon
remains: the lexer repeats its final EOF token forever and the loop has no
EOF check. -/
theorem skip_noSemi : ∀ (g : Nat) (p : PState), noSemi p →
    skipToSemicolonF g p = none := by
  intro g
  induction g with
  | zero => intro p _; rfl
  | succ g ih =>
    intro p hp
    obtain ⟨h1, h2, h3⟩ := hp
    have hc : (p.curToken.type_ == token.SEMICOLON) = false := by
      simpa using h1
    simp only [skipToSemicolonF, hc, Bool.false_eq_true, if_false]
    cases htoks : p.toks with
    | nil =>
      exact ih _ ⟨by simp [pNextToken, htoks]; exact h2,
        by simp [pNextToken, htoks]; exact h2,
        by simp [pNextToken, htoks]⟩
    | cons t rest =>
      refine ih _ ⟨by simp [pNextToken, htoks]; exact h2,
        by simp [pNextToken, htoks]; exact h3 t (by simp [htoks]),
        ?_⟩
      intro t' ht'
      simp only [pNextToken, htoks] at ht'
      exact h3 t' (by simp [htoks, ht'])

/-- When the trailing loop does terminate, it has consumed through a
semicolon: the state it returns has `;` as the current token. -/
theorem skip_stopsAtSemicolon : ∀ (g : Nat) (p q : PState),
    skipToSemicolonF g p = some q → q.curToken.type_ = token.SEMICOLON := by
  intro g
  induction g with
  | zero => intro p q h; exact Option.noConfusion h
  | succ g ih =>
    intro p q h
    by_cases hc : p.curToken.type_ = token.SEMICOLON
    · have : skipToSemicolonF (g + 1) p = some p := by
        simp [skipToSemicolonF, hc]
      rw [this] at h
      cases h
      exact hc
    · have hcb : (p.curToken.type_ == token.SEMICOLON) = false := by simpa using hc
      simp only [skipToSemicolonF, hcb, Bool.false_eq_true, if_false] at h
      exact ih _ _ h

/-- Conversely, when a semicolon remains in the stream the loop does
terminate (with enough fuel). -/
theorem skip_findsSemicolon : ∀ (n : Nat) (p : PState), p.toks.length ≤ n →
    semiIn p → ∃ g q, skipToSemicolonF g p = some q := by
  intro n
  induction n with
  | zero =>
    intro p hlen hs
    by_cases hc : p.curToken.type_ = token.SEMICOLON
    · exact ⟨1, p, by simp [skipToSemicolonF, hc]⟩
    · have htoks : p.toks = [] := List.length_eq_zero.mp (Nat.le_zero.mp hlen)
      have hpk : p.peekToken.type_ = token.SEMICOLON := by
        rcases hs with h | h | ⟨t, ht, _⟩
        · exact absurd h hc
        · exact h
        · rw [htoks] at ht; cases ht
      have hcb : (p.curToken.type_ == token.SEMICOLON) = false := by simpa using hc
      refine ⟨2, pNextToken p, ?_⟩
      simp [skipToSemicolonF, hcb, pNextToken, htoks, hpk]
  | succ n ih =>
    intro p hlen hs
    by_cases hc : p.curToken.type_ = token.SEMICOLON
    · exact ⟨1, p, by simp [skipToSemicolonF, hc]⟩
    · have hcb : (p.curToken.type_ == token.SEMICOLON) = false := by simpa using hc
      have hsem : semiIn (pNextToken p) := by
        rcases hs with h | h | ⟨t, ht, hts⟩
        · exact absurd h hc
        · cases htoks : p.toks with
          | nil => exact Or.inl (by simp [pNextToken, htoks]; exact h)
          | cons a rest => exact Or.inl (by simp [pNextToken, htoks]; exact h)
        · cases htoks : p.toks with
          | nil => rw [htoks] at ht; cases ht
          | cons a rest =>
            rw [htoks] at ht
            rcases List.mem_cons.mp ht with h1 | h1
            · exact Or.inr (Or.inl (by simp [pNextToken, htoks, h1 ▸ hts]))
            · exact Or.inr (Or.inr ⟨t, by simp [pNextToken, htoks, h1], hts⟩)
      have hlen2 : (pNextToken p).toks.length ≤ n := by
        cases htoks : p.toks with
        | nil => simp [pNextToken, htoks]
        | cons a rest =>
          rw [htoks] at hlen
          simpa [pNextToken, htoks] using Nat.lt_succ_iff.mp
            (Nat.lt_of_lt_of_le (Nat.lt_succ_self _) hlen)
      obtain ⟨g, q, hq⟩ := ih (pNextToken p) hlen2 hsem
      exact ⟨g + 1, q, by simp [skipToSemicolonF, hcb, hq]⟩

/-- The parser state reached after parsing the value of `let x = 5` (no
trailing semicolon): current token INT 5, peek EOF, stream exhausted. -/
def c6P3 : PState :=
  { toks := []
    curToken := { type_ := token.INT, literal := "5", line := 0 }
    peekToken := { type_ := token.EOF, literal := "", line := 0 }
    errors := [] }

/-- Claim C6 counterexample: parsing `let x = 5` (no trailing semicolon,
then end of input) does NOT terminate — for every fuel the let statement's
trailing semicolon-skip loop spins on the repeated EOF token, so no amount
of fuel makes `parseStatement` return.  The claim asserts the trailing
semicolon is optional and parsing always terminates. -/
theorem c6_counterexample :
    ¬ ∃ (f : Nat) (r : Option Stmt) (p : PState),
      parseStatement f (parserNew (tokensOfSource "let x = 5")) = .ret r p := by
  rintro ⟨f, r, p, h⟩
  have hs3 : noSemi c6P3 := by
    refine ⟨by decide, by decide, ?_⟩
    intro t ht
    simp [c6P3] at ht
  have key : ∀ g, parseStatement g (parserNew (tokensOfSource "let x = 5")) = .out := by
    intro g
    match g with
    | 0 => rfl
    | 1 => rfl
    | 2 => rfl
    | 3 => rfl
    | (j + 4) =>
      have hs : skipToSemicolonF (j + 2) c6P3 = none := skip_noSemi _ _ hs3
      calc parseStatement (j + 4) (parserNew (tokensOfSource "let x = 5"))
          = (match skipToSemicolonF (j + 2) c6P3 with
             | none => PRes.out
             | some p5 => PRes.ret (some (.letS "x" (.intLit 5))) p5) := rfl
        _ = .out := by rw [hs]
  rw [key f] at h
  exact PRes.noConfusion h

/-- Claim C6 amended: the trailing `;` is effectively mandatory.  With a
semicolon, let/return parse and terminate (conjuncts 1 and 3); but the
skip loop consumes every token up to the next `;`, so the tokens of a
following statement are silently swallowed: `let x = 5 foo; 7;` parses to
just two statements (the `foo` disappears into the let, conjunct 2), and
`return 5 7;` swallows the `7` (conjunct 4).  In general the loop stops
exactly on a semicolon (conjunct 5), terminates whenever one remains in
the stream (conjunct 6), and diverges — never returns, for any fuel —
when none does (conjunct 7). -/
theorem c6_amended :
    parsedProgram (parseSource 60 "let x = 5; 7;") =
      some [.letS "x" (.intLit 5), .exprS (.intLit 7)] ∧
    parsedProgram (parseSource 60 "let x = 5 foo; 7;") =
      some [.letS "x" (.intLit 5), .exprS (.intLit 7)] ∧
    parsedProgram (parseSource 60 "return 5; 7;") =
      some [.retS (.intLit 5), .exprS (.intLit 7)] ∧
    parsedProgram (parseSource 60 "return 5 7;") =
      some [.retS (.intLit 5)] ∧
    (∀ (g : Nat) (p q : PState),
      skipToSemicolonF g p = some q → q.curToken.type_ = token.SEMICOLON) ∧
    (∀ (p : PState), semiIn p → ∃ g q, skipToSemicolonF g p = some q) ∧
    (∀ (g : Nat) (p : PState), noSemi p → skipToSemicolonF g p = none) := by
  exact ⟨rfl, rfl, rfl, rfl, skip_stopsAtSemicolon,
    fun p hs => skip_findsSemicolon p.toks.length p (Nat.le_refl _) hs,
    fun g p hp => skip_noSemi g p hp⟩

/-- Witness for `c6_amended`'s quantified conjuncts at concrete states. -/
theorem c6_amended_witness :
    (skipToSemicolonF 3 c6P3 = none) ∧
    (∃ g q, skipToSemicolonF g
      { toks := [], curToken := { type_ := token.SEMICOLON, literal := ";", line := 0 },
        peekToken := { type_ := token.EOF, literal := "", line := 0 }, errors := [] }
        = some q) := by
  constructor
  · exact c6_amended.2.2.2.2.2.2 3 c6P3
      ⟨by decide, by decide, by intro t ht; simp [c6P3] at ht⟩
  · exact c6_amended.2.2.2.2.2.1 _ (Or.inl rfl)

/-- `{2: 7}[2];`. -/
def c7IntProgram : List Stmt :=
  [.exprS (.indexE (.hashLit [(.intLit 2, .intLit 7)]) (.intLit 2))]

/-- `{true: 5}[true];`. -/
def c7BoolProgram : List Stmt :=
  [.exprS (.indexE (.hashLit [(.boolLit true, .intLit 5)]) (.boolLit true))]

/-- `{"name": "Monkey"}["name"];`. -/
def c7StrProgram : List Stmt :=
  [.exprS (.indexE (.hashLit [(.strLit "name", .strLit "Monkey")]) (.strLit "name"))]

/-- `{"name": "Monkey"}[fn(x){x}];`. -/
def c7FnProgram : List Stmt :=
  [.exprS (.indexE (.hashLit [(.strLit "name", .strLit "Monkey")])
    (.fnLit ["x"] [.exprS (.ident "x")] ""))]

/-- Claim C7: hash keys are derived deterministically — booleans map to
(BOOLEAN, 0/1), integers to (INTEGER, their 64-bit pattern), strings to
(STRING, FNV-1a of their bytes), and exactly integers, booleans and
strings are hashable (conjuncts 1–5); indexing the hash `{k: v}` with a
key deriving the same hash key returns `v` (conjunct 6); indexing with a
non-hashable key errors `unusable as hash key: <tag>` (conjunct 7); and
the end-to-end examples: `{2:7}[2]` is 7, `{true:5}[true]` is 5,
`{"name":"Monkey"}["name"]` is "Monkey", and indexing with a function
literal errors `unusable as hash key: FUNCTION` (conjuncts 8–11). -/
theorem c7_hash_key_roundtrip :
    (∀ (s : St) (r : ObjRef), (hashKeyOf s r).isSome ↔
      (typeOf s r = INTEGER_OBJ ∨ typeOf s r = BOOLEAN_OBJ ∨
        typeOf s r = STRING_OBJ)) ∧
    (∀ s : St, hashKeyOf s TRUE = some ⟨BOOLEAN_OBJ, 1⟩) ∧
    (∀ s : St, hashKeyOf s FALSE = some ⟨BOOLEAN_OBJ, 0⟩) ∧
    (∀ (s : St) (a : Nat) (v : Int), s.read a = .int v →
      hashKeyOf s (.heap a) = some ⟨INTEGER_OBJ, toUint64 v⟩) ∧
    (∀ (s : St) (a : Nat) (str : String), s.read a = .str str →
      hashKeyOf s (.heap a) = some ⟨STRING_OBJ, fnv64a (strBytes str)⟩) ∧
    (∀ (s : St) (H : Nat) (hk : HashKey) (k k' : ObjRef) (v : Option ObjRef),
      s.read H = .hashv [(hk, k, v)] → hashKeyOf s k' = some hk →
      evalHashIndexExpression s (.heap H) (some k') = (.ok v, s)) ∧
    (∀ (s : St) (H : Nat) (pairs : List (HashKey × ObjRef × Option ObjRef))
        (r : ObjRef),
      s.read H = .hashv pairs → hashKeyOf s r = none →
      resultErrMsg (evalHashIndexExpression s (.heap H) (some r)) =
        some ("unusable as hash key: " ++ typeOf s r)) ∧
    resultInt (runEvaluator 20 c7IntProgram) = some 7 ∧
    resultInt (runEvaluator 20 c7BoolProgram) = some 5 ∧
    resultStr (runEvaluator 20 c7StrProgram) = some "Monkey" ∧
    resultErrMsg (runEvaluator 20 c7FnProgram) =
      some "unusable as hash key: FUNCTION" := by
  refine ⟨?_, fun _ => rfl, fun _ => rfl, ?_, ?_, ?_, ?_, rfl, rfl, rfl, rfl⟩
  · intro s r
    cases r with
    | boolTrue =>
      simp [hashKeyOf, typeOf, BOOLEAN_OBJ, INTEGER_OBJ, STRING_OBJ]
    | boolFalse =>
      simp [hashKeyOf, typeOf, BOOLEAN_OBJ, INTEGER_OBJ, STRING_OBJ]
    | nullRef =>
      simp [hashKeyOf, typeOf, NULL_OBJ, BOOLEAN_OBJ, INTEGER_OBJ, STRING_OBJ]
    | heap a =>
      cases hread : s.read a <;>
        simp [hashKeyOf, typeOf, hread, INTEGER_OBJ, BOOLEAN_OBJ, STRING_OBJ,
          FLOAT_OBJ, NULL_OBJ, ARRAY_OBJ, HASH_OBJ, TENSOR_OBJ, FUNCTION_OBJ,
          BUILTIN_OBJ, RETURN_VALUE_OBJ, ERROR_OBJ]
  · intro s a v h
    simp [hashKeyOf, h]
  · intro s a str h
    simp [hashKeyOf, h]
  · intro s H hk k k' v hH hk'
    simp [evalHashIndexExpression, hH, hk']
  · intro s H pairs r hH hr
    simp only [St.read, List.get?_eq_getElem?] at hH
    simp [evalHashIndexExpression, hH, hr, resultErrMsg, newError, St.alloc,
      St.read, List.get?_eq_getElem?, List.getElem?_concat_length]

/-- A store holding a one-pair hash `{2: 7}` and its key/value objects. -/
def c7St : St :=
  { heapv := [.int 2, .int 7, .hashv [(⟨INTEGER_OBJ, 2⟩, .heap 0, some (.heap 1))], .fn [] [] 0]
    envs := [] }

/-- Witness for `c7_hash_key_roundtrip` at concrete objects. -/
theorem c7_hash_key_roundtrip_witness :
    ((hashKeyOf c7St (.heap 0)).isSome ↔
      (typeOf c7St (.heap 0) = INTEGER_OBJ ∨ typeOf c7St (.heap 0) = BOOLEAN_OBJ ∨
        typeOf c7St (.heap 0) = STRING_OBJ)) ∧
    hashKeyOf c7St (.heap 0) = some ⟨INTEGER_OBJ, toUint64 2⟩ ∧
    evalHashIndexExpression c7St (.heap 2) (some (.heap 0)) =
      (.ok (some (.heap 1)), c7St) ∧
    resultErrMsg (evalHashIndexExpression c7St (.heap 2) (some (.heap 3))) =
      some "unusable as hash key: FUNCTION" := by
  refine ⟨c7_hash_key_roundtrip.1 c7St (.heap 0),
    c7_hash_key_roundtrip.2.2.2.1 c7St 0 2 rfl,
    c7_hash_key_roundtrip.2.2.2.2.2.1 c7St 2 ⟨INTEGER_OBJ, 2⟩ (.heap 0) (.heap 0)
      (some (.heap 1)) rfl (by decide),
    c7_hash_key_roundtrip.2.2.2.2.2.2.1 c7St 2 _ (.heap 3) rfl (by decide)⟩

/-- Claim C8: for every array of length n and integer index i with i < 0
or i ≥ n, indexing returns `Null` and is not an error: in the evaluator
(conjunct 1), in the VM — `executeArrayIndex` pushes `Null` and leaves
the store untouched (conjunct 2) — and in particular `[1,2,3][-1]` and
`[1,2,3][3]` evaluate to `Null` end to end (conjuncts 3 and 4). -/
theorem c8_out_of_bounds_index_null :
    (∀ (s : St) (a b : Nat) (elems : List (Option ObjRef)) (i : Int),
      s.read a = .arr elems → s.read b = .int i →
      (i < 0 ∨ (elems.length : Int) ≤ i) →
      evalArrayIndexExpression s (.heap a) (.heap b) = (.ok (some NULL), s)) ∧
    (∀ (vm : VmSt) (a b : Nat) (elems : List (Option ObjRef)) (i : Int),
      vm.store.read a = .arr elems → vm.store.read b = .int i →
      (i < 0 ∨ (elems.length : Int) ≤ i) → vm.sp < StackeSize →
      ∃ vm', executeArrayIndex vm (.heap a) (.heap b) = .cont vm' ∧
        vm'.stack vm.sp = some NULL ∧ vm'.sp = vm.sp + 1 ∧
        vm'.store = vm.store) ∧
    resultVal (runEvaluator 20
      [.exprS (.indexE (.arrLit [.intLit 1, .intLit 2, .intLit 3])
        (.prefixE "-" (.intLit 1)))]) = some (some NULL) ∧
    resultVal (runEvaluator 20
      [.exprS (.indexE (.arrLit [.intLit 1, .intLit 2, .intLit 3])
        (.intLit 3))]) = some (some NULL) := by
  refine ⟨?_, ?_, rfl, rfl⟩
  · intro s a b elems i ha hb hoob
    have hc : i < 0 ∨ (elems.length : Int) - 1 < i := by omega
    simp only [St.read, List.get?_eq_getElem?] at ha hb
    simp [evalArrayIndexExpression, St.read, List.get?_eq_getElem?, ha, hb, hc]
  · intro vm a b elems i ha hb hoob hsp
    have hc : i < 0 ∨ (elems.length : Int) - 1 < i := by omega
    simp only [St.read, List.get?_eq_getElem?] at ha hb
    refine ⟨{ vm with
        stack := fun n => if n == vm.sp then some NULL else vm.stack n
        sp := vm.sp + 1 }, ?_, by simp, rfl, rfl⟩
    simp [executeArrayIndex, St.read, List.get?_eq_getElem?, ha, hb, hc,
      vmPush, Nat.not_le.mpr hsp]

/-- A store holding the one-element array `[7]` at address 0. -/
def c8St : St := { heapv := [.arr [some (.heap 1)], .int 5, .int 1], envs := [] }

/-- Witness for `c8_out_of_bounds_index_null`: indexing `[<int>]` at 1
(= its length) yields `Null` in both backends. -/
theorem c8_out_of_bounds_index_null_witness :
    evalArrayIndexExpression c8St (.heap 0) (.heap 2) = (.ok (some NULL), c8St) ∧
    (∃ vm', executeArrayIndex
        { store := c8St, constants := [], stack := fun _ => none, sp := 0,
          globals := fun _ => none,
          frames := fun _ => { clA := 0, ip := -1, basePointer := 0 },
          framesIndex := 1 } (.heap 0) (.heap 2) = .cont vm' ∧
      vm'.stack 0 = some NULL ∧ vm'.sp = 0 + 1 ∧ vm'.store = c8St) := by
  constructor
  · exact c8_out_of_bounds_index_null.1 c8St 0 2 [some (.heap 1)] 1 rfl rfl
      (by decide)
  · exact c8_out_of_bounds_index_null.2.1 _ 0 2 [some (.heap 1)] 1 rfl rfl
      (by decide) (by decide)

/-- Claim C9: `push(arr, x)` appends IN PLACE — the same array object
(the same reference) is returned, the heap cell now holds the longer
element list so every alias sees the mutation, all other heap cells are
untouched, and the pre-existing positions are unchanged (conjunct 1);
`pop(arr)` removes and returns the last element in place with the same
sharing behaviour (conjunct 2). -/
theorem c9_push_pop_in_place :
    (∀ (s : St) (a : Nat) (elems : List (Option ObjRef)) (x : Option ObjRef),
      s.read a = .arr elems →
      builtinPush s [some (.heap a), x] =
        (.ok (some (.heap a)), s.write a (.arr (elems ++ [x]))) ∧
      (s.write a (.arr (elems ++ [x]))).read a = .arr (elems ++ [x]) ∧
      (∀ b, b ≠ a → (s.write a (.arr (elems ++ [x]))).read b = s.read b) ∧
      (∀ j, j < elems.length → (elems ++ [x]).get? j = elems.get? j)) ∧
    (∀ (s : St) (a : Nat) (elems : List (Option ObjRef)),
      s.read a = .arr elems → elems ≠ [] →
      builtinPop s [some (.heap a)] =
        (.ok (elems.getLastD none), s.write a (.arr elems.dropLast)) ∧
      (s.write a (.arr elems.dropLast)).read a = .arr elems.dropLast ∧
      (∀ b, b ≠ a → (s.write a (.arr elems.dropLast)).read b = s.read b) ∧
      (∀ j, j + 1 < elems.length → elems.dropLast.get? j = elems.get? j)) := by
  constructor
  · intro s a elems x ha
    have hta : typeOf s (.heap a) = ARRAY_OBJ := by simp [typeOf, ha]
    have hlt : a < s.heapv.length := by
      by_contra hge
      simp [St.read, List.get?_eq_getElem?,
        List.getElem?_eq_none (Nat.le_of_not_lt hge)] at ha
    refine ⟨?_, ?_, ?_, ?_⟩
    · simp only [St.read, List.get?_eq_getElem?] at ha
      simp [builtinPush, hta, St.read, List.get?_eq_getElem?, ha, ARRAY_OBJ]
    · simp [St.read, St.write, List.get?_eq_getElem?, List.getElem?_set_self,
        hlt]
    · intro b hb
      simp [St.read, St.write, List.get?_eq_getElem?,
        List.getElem?_set_ne (fun h => hb h.symm)]
    · intro j hj
      simp [List.get?_eq_getElem?, List.getElem?_append, hj]
  · intro s a elems ha hne
    have hta : typeOf s (.heap a) = ARRAY_OBJ := by simp [typeOf, ha]
    have hlt : a < s.heapv.length := by
      by_contra hge
      simp [St.read, List.get?_eq_getElem?,
        List.getElem?_eq_none (Nat.le_of_not_lt hge)] at ha
    have hlen : 0 < elems.length := List.length_pos.mpr hne
    refine ⟨?_, ?_, ?_, ?_⟩
    · simp only [St.read, List.get?_eq_getElem?] at ha
      simp [builtinPop, hta, St.read, List.get?_eq_getElem?, ha, ARRAY_OBJ,
        hlen]
    · simp [St.read, St.write, List.get?_eq_getElem?, List.getElem?_set_self,
        hlt]
    · intro b hb
      simp [St.read, St.write, List.get?_eq_getElem?,
        List.getElem?_set_ne (fun h => hb h.symm)]
    · intro j hj
      have hj' : j < elems.length - 1 := by omega
      rw [List.dropLast_eq_take]
      simp [List.get?_eq_getElem?, List.getElem?_take, hj']

/-- Witness for `c9_push_pop_in_place` at the concrete array `[<int 5>]`. -/
theorem c9_push_pop_in_place_witness :
    builtinPush c8St [some (.heap 0), some (.heap 2)] =
      (.ok (some (.heap 0)),
        c8St.write 0 (.arr [some (.heap 1), some (.heap 2)])) ∧
    builtinPop c8St [some (.heap 0)] =
      (.ok (some (.heap 1)), c8St.write 0 (.arr [])) := by
  constructor
  · exact (c9_push_pop_in_place.1 c8St 0 [some (.heap 1)] (some (.heap 2)) rfl).1
  · exact (c9_push_pop_in_place.2 c8St 0 [some (.heap 1)] rfl (by decide)).1

/-- `readStringF` never touches the line counter. -/
theorem line_readStringF : ∀ (f : Nat) (l : Lexer), (readStringF f l).line = l.line := by
  intro f
  induction f with
  | zero => intro l; rfl
  | succ f ih =>
    intro l
    simp only [readStringF]
    split
    · simp [readChar]
    · simp [ih, readChar]

/-- The line counter never decreases across the whitespace-skipping loop. -/
theorem line_skipWhitespaceF_mono :
    ∀ (f : Nat) (l : Lexer), l.line ≤ (skipWhitespaceF f l).line := by
  intro f
  induction f with
  | zero => intro l; exact Nat.le_refl _
  | succ f ih =>
    intro l
    simp only [skipWhitespaceF]
    split
    · refine Nat.le_trans ?_
        (ih (readChar (if l.ch == 10 then { l with line := l.line + 1 } else l)))
      by_cases h10 : l.ch == 10 <;> simp [h10, readChar]
    · exact Nat.le_refl _

/-- Nat `==` is false on unequal values. -/
theorem beq_false_of_ne {a b : Nat} (h : a ≠ b) : (a == b) = false :=
  Bool.eq_false_iff.mpr (fun hb => h (beq_iff_eq.mp hb))

/-- Counterexample to claim C10: after a newline the line counter is 1,
and the SEMICOLON token does carry line 1, but the identifier token `x`
and the integer token `5` carry line 0 — `NextToken` returns from the
identifier/keyword and number branches before the `tok.Line = l.line`
assignment. -/
theorem c10_counterexample :
    (skipWhitespace (lexerNew (srcBytes "\nx"))).line = 1 ∧
    (nextToken (lexerNew (srcBytes "\n;"))).1 =
      { type_ := token.SEMICOLON, literal := ";", line := 1 } ∧
    (nextToken (lexerNew (srcBytes "\nx"))).1 =
      { type_ := token.IDENT, literal := "x", line := 0 } ∧
    (nextToken (lexerNew (srcBytes "\n5"))).1 =
      { type_ := token.INT, literal := "5", line := 0 } :=
  ⟨rfl, rfl, rfl, rfl⟩

set_option maxHeartbeats 3000000 in
/-- Amended claim C10: `skipWhitespace` does increment the line counter
at each newline (conjunct 3), and every token produced by an operator,
delimiter, string, EOF or ILLEGAL branch carries the current line
counter (conjunct 2) — but every identifier, keyword, integer and float
token carries line 0, the Go zero value, because those branches return
before `tok.Line` is assigned (conjunct 1). -/
theorem c10_amended :
    (∀ l : Lexer,
      (isLetter (skipWhitespace l).ch || isDigit (skipWhitespace l).ch) = true →
      ((nextToken l).1).line = 0) ∧
    (∀ l : Lexer,
      isLetter (skipWhitespace l).ch = false →
      isDigit (skipWhitespace l).ch = false →
      ((nextToken l).1).line = (skipWhitespace l).line) ∧
    (∀ l : Lexer, l.ch = 10 → l.line + 1 ≤ (skipWhitespace l).line) := by
  refine ⟨?_, ?_, ?_⟩
  · intro l h
    revert h
    simp only [nextToken]
    generalize skipWhitespace l = m
    intro h
    simp only [isLetter, isDigit, Bool.or_eq_true, Bool.and_eq_true,
      decide_eq_true_eq, beq_iff_eq] at h
    have e61 : (m.ch == 61) = false := beq_false_of_ne (by omega : m.ch ≠ 61)
    have e33 : (m.ch == 33) = false := beq_false_of_ne (by omega : m.ch ≠ 33)
    have e59 : (m.ch == 59) = false := beq_false_of_ne (by omega : m.ch ≠ 59)
    have e58 : (m.ch == 58) = false := beq_false_of_ne (by omega : m.ch ≠ 58)
    have e40 : (m.ch == 40) = false := beq_false_of_ne (by omega : m.ch ≠ 40)
    have e41 : (m.ch == 41) = false := beq_false_of_ne (by omega : m.ch ≠ 41)
    have e44 : (m.ch == 44) = false := beq_false_of_ne (by omega : m.ch ≠ 44)
    have e43 : (m.ch == 43) = false := beq_false_of_ne (by omega : m.ch ≠ 43)
    have e45 : (m.ch == 45) = false := beq_false_of_ne (by omega : m.ch ≠ 45)
    have e47 : (m.ch == 47) = false := beq_false_of_ne (by omega : m.ch ≠ 47)
    have e42 : (m.ch == 42) = false := beq_false_of_ne (by omega : m.ch ≠ 42)
    have e60 : (m.ch == 60) = false := beq_false_of_ne (by omega : m.ch ≠ 60)
    have e62 : (m.ch == 62) = false := beq_false_of_ne (by omega : m.ch ≠ 62)
    have e123 : (m.ch == 123) = false := beq_false_of_ne (by omega : m.ch ≠ 123)
    have e125 : (m.ch == 125) = false := beq_false_of_ne (by omega : m.ch ≠ 125)
    have e91 : (m.ch == 91) = false := beq_false_of_ne (by omega : m.ch ≠ 91)
    have e93 : (m.ch == 93) = false := beq_false_of_ne (by omega : m.ch ≠ 93)
    have e64 : (m.ch == 64) = false := beq_false_of_ne (by omega : m.ch ≠ 64)
    have e34 : (m.ch == 34) = false := beq_false_of_ne (by omega : m.ch ≠ 34)
    have e0 : (m.ch == 0) = false := beq_false_of_ne (by omega : m.ch ≠ 0)
    simp only [e61, e33, e59, e58, e40, e41, e44, e43, e45, e47, e42, e60,
      e62, e123, e125, e91, e93, e64, e34, e0, Bool.false_eq_true, if_false]
    by_cases hl : isLetter m.ch
    · simp [hl, readIdentifier]
    · have hd : isDigit m.ch = true := by
        simp only [isLetter, Bool.or_eq_true, Bool.and_eq_true,
          decide_eq_true_eq, beq_iff_eq] at hl
        simp only [isDigit, Bool.and_eq_true, decide_eq_true_eq]
        omega
      rcases hp : readNumberF (m.input.length + 2) m token.INT with ⟨l1, ty⟩
      simp [hl, hd, readNumber, hp]
  · intro l hl hd
    revert hl hd
    simp only [nextToken]
    generalize skipWhitespace l = m
    intro hl hd
    by_cases hmem : m.ch ∈ ([61, 33, 59, 58, 40, 41, 44, 43, 45, 47, 42, 60,
        62, 123, 125, 91, 93, 64, 34, 0] : List Nat)
    · simp only [List.mem_cons, List.not_mem_nil, or_false] at hmem
      rcases hmem with h|h|h|h|h|h|h|h|h|h|h|h|h|h|h|h|h|h|h|h <;>
        simp only [h] <;>
        first
          | (simp [finishToken, readChar, newToken, readString,
              line_readStringF]
             done)
          | (by_cases hp : peekCharacter m == 61 <;>
             simp [hp, finishToken, readChar, newToken])
    · simp only [List.mem_cons, List.not_mem_nil, or_false, not_or] at hmem
      obtain ⟨n61, n33, n59, n58, n40, n41, n44, n43, n45, n47, n42, n60,
        n62, n123, n125, n91, n93, n64, n34, n0⟩ := hmem
      simp [beq_false_of_ne n61, beq_false_of_ne n33, beq_false_of_ne n59,
        beq_false_of_ne n58, beq_false_of_ne n40, beq_false_of_ne n41,
        beq_false_of_ne n44, beq_false_of_ne n43, beq_false_of_ne n45,
        beq_false_of_ne n47, beq_false_of_ne n42, beq_false_of_ne n60,
        beq_false_of_ne n62, beq_false_of_ne n123, beq_false_of_ne n125,
        beq_false_of_ne n91, beq_false_of_ne n93, beq_false_of_ne n64,
        beq_false_of_ne n34, beq_false_of_ne n0, hl, hd, finishToken,
        newToken]
  · intro l h10
    have h2 : skipWhitespace l =
        skipWhitespaceF (l.input.length + 1)
          (readChar { l with line := l.line + 1 }) := by
      simp [skipWhitespace, skipWhitespaceF, h10]
    rw [h2]
    calc l.line + 1 = (readChar { l with line := l.line + 1 }).line := by
          simp [readChar]
      _ ≤ _ := line_skipWhitespaceF_mono _ _

/-- Witness for `c10_amended` on the concrete sources `"\nx"` and
`"\n;"`. -/
theorem c10_amended_witness :
    ((nextToken (lexerNew (srcBytes "\nx"))).1).line = 0 ∧
    ((nextToken (lexerNew (srcBytes "\n;"))).1).line =
      (skipWhitespace (lexerNew (srcBytes "\n;"))).line ∧
    (lexerNew (srcBytes "\nx")).line + 1 ≤
      (skipWhitespace (lexerNew (srcBytes "\nx"))).line :=
  ⟨c10_amended.1 (lexerNew (srcBytes "\nx")) (by decide),
   c10_amended.2.1 (lexerNew (srcBytes "\n;")) (by decide) (by decide),
   c10_amended.2.2 (lexerNew (srcBytes "\nx")) (by decide)⟩

end Monkey